import Mathlib

/-!
# Verification of the SEC-Filing-RAG extraction pipeline

Shallow embedding of the data model and the algorithms of
`secfiling_extraction.py`, together with theorems settling the frozen
claims about the repository's specification.

Python strings are modelled as Lean `String`s (ASCII-faithful), Python
floats produced by parsing decimal literals are modelled exactly as
rationals (`ℚ`), Python `None` is modelled as `Option.none`, and JSON
values are modelled by the inductive type `JsonVal` below.
-/

namespace SecFiling

/-- Model of Python `str.lower` on one character (ASCII case mapping;
the strings compared in the source are ASCII). -/
def pyLowerChar (c : Char) : Char :=
  if 65 ≤ c.toNat ∧ c.toNat ≤ 90 then Char.ofNat (c.toNat + 32) else c

/-- Model of Python `str.lower` (ASCII case mapping). -/
def pyLower (cs : List Char) : List Char := cs.map pyLowerChar

/-- Model of `value_str.replace('$', '').replace('%', '')` from
`extract_numeric_value`: delete every dollar and percent sign. -/
def stripCurrency (cs : List Char) : List Char :=
  cs.filter (fun c => c ≠ '$' ∧ c ≠ '%')

mutual

/-- Model of a parsed Python JSON value (the result of `json.loads`):
strings, numbers (ints and floats collapsed, decimal literals modelled
exactly as rationals), booleans, null, arrays and objects.  Arrays and
objects are given by the mutual types `JsonArr` and `JsonObj`. -/
inductive JsonVal where
  | str : String → JsonVal
  | num : ℚ → JsonVal
  | bool : Bool → JsonVal
  | null : JsonVal
  | arr : JsonArr → JsonVal
  | obj : JsonObj → JsonVal
deriving DecidableEq

inductive JsonArr where
  | nil : JsonArr
  | cons : JsonVal → JsonArr → JsonArr
deriving DecidableEq

inductive JsonObj where
  | nil : JsonObj
  | cons : String → JsonVal → JsonObj → JsonObj
deriving DecidableEq

end

/-- Python truthiness (`bool(v)`) of a JSON value: empty string, zero,
`False`, `None`, empty list and empty dict are falsy. -/
def truthy : JsonVal → Bool
  | .str s => decide (s ≠ "")
  | .num q => decide (q ≠ 0)
  | .bool b => b
  | .null => false
  | .arr .nil => false
  | .arr (.cons _ _) => true
  | .obj .nil => false
  | .obj (.cons _ _ _) => true

/-- A Python value as an optional JSON value: `None` becomes `none`,
everything else stays. Used where the source returns a raw Python value
that may be `None`. -/
def pyOpt : JsonVal → Option JsonVal
  | .null => none
  | v => some v

/-- Lookup of a key in a JSON object (Python dict keys are unique, so
the first binding is the binding). -/
def JsonObj.get : JsonObj → String → Option JsonVal
  | .nil, _ => none
  | .cons k v rest, key => if k = key then some v else rest.get key

/-- Model of Python `dict.get(key, default)`. -/
def JsonObj.getD (o : JsonObj) (key : String) (dflt : JsonVal) : JsonVal :=
  match o.get key with
  | some v => v
  | none => dflt

/-- The keys of a JSON object, in order. -/
def JsonObj.keys : JsonObj → List String
  | .nil => []
  | .cons k _ rest => k :: rest.keys

/-- An ASCII decimal digit (the characters matched by `\d` in the
source's patterns). -/
def isDig (c : Char) : Bool := 48 ≤ c.toNat ∧ c.toNat ≤ 57

/-- `\d{1,3}`, greedily: up to three leading decimal digits. -/
def takeUpTo3Digits : List Char → List Char × List Char
  | [] => ([], [])
  | c :: cs =>
    if isDig c then
      match cs with
      | [] => ([c], [])
      | c2 :: cs2 =>
        if isDig c2 then
          match cs2 with
          | [] => ([c, c2], [])
          | c3 :: cs3 => if isDig c3 then ([c, c2, c3], cs3) else ([c, c2], cs2)
        else ([c], cs)
    else ([], c :: cs)

/-- `(?:,\d{3})*`, greedily: comma-separated three-digit groups. -/
def takeGroups : List Char → List Char × List Char
  | ',' :: a :: b :: c :: rest =>
    if isDig a ∧ isDig b ∧ isDig c then
      let (gs, r) := takeGroups rest
      (',' :: a :: b :: c :: gs, r)
    else ([], ',' :: a :: b :: c :: rest)
  | cs => ([], cs)

/-- `\d+`, greedily. -/
def takeDigitsGreedy : List Char → List Char × List Char
  | [] => ([], [])
  | c :: cs =>
    if isDig c then
      let (ds, r) := takeDigitsGreedy cs
      (c :: ds, r)
    else ([], c :: cs)

/-- `(?:\.\d+)?`, greedily: an optional fractional part. -/
def takeFrac : List Char → List Char × List Char
  | '.' :: c :: cs =>
    if isDig c then
      let (ds, r) := takeDigitsGreedy cs
      ('.' :: c :: ds, r)
    else ([], '.' :: c :: cs)
  | cs => ([], cs)

/-- Match the source's number pattern `-?\d{1,3}(?:,\d{3})*(?:\.\d+)?`
anchored at the head of the character list, with the greedy semantics of
Python's `re`. Returns the matched characters. -/
def matchNumAt (cs : List Char) : Option (List Char) :=
  let sgn : List Char := if cs.headD ' ' = '-' then ['-'] else []
  let cs1 := if cs.headD ' ' = '-' then cs.tail else cs
  let (ds, cs2) := takeUpTo3Digits cs1
  if ds = [] then none
  else
    let (gs, cs3) := takeGroups cs2
    let (fr, _) := takeFrac cs3
    some (sgn ++ ds ++ gs ++ fr)

/-- Model of `re.search` for the number pattern: try each start
position left to right, return the first (leftmost) match. -/
def searchNum : List Char → Option (List Char)
  | [] => none
  | c :: cs =>
    match matchNumAt (c :: cs) with
    | some t => some t
    | none => searchNum cs

/-- `ds.foldl`-style decimal reading of a digit string. -/
def digitsToNat (ds : List Char) : Nat :=
  ds.foldl (fun n c => 10 * n + (c.toNat - 48)) 0

/-- Model of `float(match.group().replace(',', ''))` on a token matched
by the number pattern: drop the commas, read sign, integer and
fractional part.  The denoted decimal value is represented exactly as a
rational. -/
def ratOfToken (t : List Char) : ℚ :=
  let t1 := t.filter (fun c => c ≠ ',')
  let neg := t1.headD ' ' = '-'
  let t2 := if t1.headD ' ' = '-' then t1.tail else t1
  let intPart := t2.takeWhile (fun c => isDig c)
  let rest := t2.dropWhile (fun c => isDig c)
  let fracDs :=
    match rest with
    | '.' :: fs => fs
    | _ => []
  let v : ℚ := (digitsToNat intPart : ℚ) + (digitsToNat fracDs : ℚ) / (10 : ℚ) ^ fracDs.length
  if neg then -v else v

/-- The sentinel spellings recognised (lower-cased) by
`extract_numeric_value`. -/
def sentinelList : List String := ["not found", "n/m", "nm", "n.m.", "", "none"]

/-- Embedding of `extract_numeric_value` (src lines 838-858).  Non-string
inputs are returned unchanged; sentinel strings yield `None`; otherwise
currency symbols are stripped and the first match of the number pattern
is parsed, `None` when there is no match. -/
def extract_numeric_value (v : JsonVal) : Option JsonVal :=
  match v with
  | .str s =>
    if String.mk (pyLower s.data) ∈ sentinelList then none
    else
      match searchNum (stripCurrency s.data) with
      | some t => some (.num (ratOfToken t))
      | none => none
  | .null => none
  | v => some v

/-- Python whitespace, as stripped by `str.strip()`. -/
def isPyWS (c : Char) : Bool :=
  c = ' ' ∨ c = '\t' ∨ c = '\n' ∨ c = '\r' ∨ c = '\x0b' ∨ c = '\x0c'

/-- Model of `str.strip()`: drop whitespace from both ends. -/
def pyStrip (s : String) : String :=
  String.mk (((s.data.dropWhile isPyWS).reverse.dropWhile isPyWS).reverse)

/-- Decimal rendering of a rational whose denominator divides a power of
ten (the numbers that arise from JSON decimal literals), used to model
Python `str()` on a number.  Other denominators fall back to a
fraction rendering; only determinism, not the exact spelling, matters to
the claims. -/
def ratStr (q : ℚ) : String :=
  let sign := if q < 0 then "-" else ""
  let n := q.num.natAbs
  let d := q.den
  match (List.range 40).find? (fun k => (10 ^ k) % d = 0) with
  | some 0 => sign ++ toString n
  | some k =>
    let scaled := n * (10 ^ k / d)
    let intPart := scaled / 10 ^ k
    let fracPart := scaled % 10 ^ k
    let fracDigits := toString fracPart
    let padded := String.mk (List.replicate (k - fracDigits.length) '0') ++ fracDigits
    sign ++ toString intPart ++ "." ++ padded
  | none => sign ++ toString n ++ "/" ++ toString d

/-- Model of Python `str()` on a JSON value.  Scalars are rendered
faithfully; the rendering of nested lists/dicts (which Python would
render via `repr`) is abstracted to a fixed bracket form — no claim
depends on it, only on its determinism. -/
def pyStr : JsonVal → String
  | .str s => s
  | .num q => ratStr q
  | .bool true => "True"
  | .bool false => "False"
  | .null => "None"
  | .arr _ => "[list]"
  | .obj _ => "[dict]"

/-- Embedding of `parse_simplified_value` (src lines 860-878).  Falsy or
`"Not found"` inputs map to `(None, value)`; dicts use the old
`value`/`unit` format; any other value is passed to
`extract_numeric_value` with the original value preserved as the
display component. -/
def parse_simplified_value (value : JsonVal) : Option JsonVal × Option JsonVal :=
  if truthy value = false ∨ value = .str "Not found" then (none, pyOpt value)
  else
    match value with
    | .obj o =>
      let v := o.getD "value" (.str "Not found")
      if v = .str "Not found" then (none, some (.str "Not found"))
      else
        let unit := o.getD "unit" (.str "")
        (extract_numeric_value v, some (.str (pyStrip (pyStr v ++ " " ++ pyStr unit))))
    | v => (extract_numeric_value v, some v)

/-- Embedding of `get_value_from_dict` (src lines 880-885): try the
candidate keys in order, parse the value of the first key present,
`(None, None)` when none is. -/
def get_value_from_dict (data_dict : JsonObj) : List String → Option JsonVal × Option JsonVal
  | [] => (none, none)
  | key :: rest =>
    match data_dict.get key with
    | some v => parse_simplified_value v
    | none => get_value_from_dict data_dict rest

/-! ## Extraction engine response handling (`extract_metrics`, src lines 806-832) -/

/-- The opening tag of a fenced JSON block. -/
def fenceOpen : List Char := "```json".data

/-- A closing code fence. -/
def fenceClose : List Char := "```".data

/-- Split at the first occurrence of a closing fence: the characters
before it and those after it, `none` when there is no fence. -/
def splitAtTicks : List Char → Option (List Char × List Char)
  | [] => none
  | c :: cs =>
    if List.isPrefixOf fenceClose (c :: cs) then some ([], (c :: cs).drop 3)
    else
      match splitAtTicks cs with
      | some (pre, post) => some (c :: pre, post)
      | none => none

/-- Try to match the fence pattern with its start anchored here: an
opening tag, greedy leading whitespace, then the (non-greedy) body up to
the first closing fence, trailing whitespace stripped.  This reproduces
`re.search(r'```json\s*(.*?)\s*```', result, re.DOTALL).group(1)`
for a match starting at this position. -/
def fenceAt (cs : List Char) : Option (List Char) :=
  if List.isPrefixOf fenceOpen cs then
    let afterTag := cs.drop 7
    let content0 := afterTag.dropWhile isPyWS
    match splitAtTicks content0 with
    | some (content, _) => some ((content.reverse.dropWhile isPyWS).reverse)
    | none => none
  else none

/-- Leftmost match of the fenced-JSON pattern: try every start position
from the left, as `re.search` does. -/
def extract_json_fence : List Char → Option (List Char)
  | [] => none
  | c :: cs =>
    match fenceAt (c :: cs) with
    | some r => some r
    | none => extract_json_fence cs

/-- The shape of `extract_metrics`' return dict: `success`, the
`data` payload (a parsed JSON object or the raw text), the optional
`format` marker and the optional `error` message. -/
structure ExtractionResult (J : Type) where
  success : Bool
  data : Option (J ⊕ String)
  fmt : Option String
  error : Option String
deriving DecidableEq

/-- Embedding of `extract_metrics` (src lines 806-832).  The LLM
transport (`rag_chain.invoke`) is the `invokeResult` input: `Except.error`
models a raised transport/model exception, `Except.ok` the response
text.  JSON parsing (`json.loads`) is the black-box parameter
`parseJson`; the fenced-block preference is the concrete
`extract_json_fence` above. -/
def extract_metrics {J : Type} (parseJson : String → Option J)
    (invokeResult : Except String String) : ExtractionResult J :=
  match invokeResult with
  | .error e => ⟨false, none, none, some e⟩
  | .ok response =>
    let result :=
      match extract_json_fence response.data with
      | some inner => String.mk inner
      | none => response
    match parseJson result with
    | some parsed => ⟨true, some (Sum.inl parsed), none, none⟩
    | none => ⟨true, some (Sum.inr result), some "text", none⟩

/-- The text whose parse `extract_metrics` attempts: the contents of a
fenced `json` block when one is present, the raw response otherwise. -/
def preferredText (response : String) : String :=
  match extract_json_fence response.data with
  | some inner => String.mk inner
  | none => response

/-! ## Filing document URL resolution
(`SECFilingFetcher.get_filing_document_url`, src lines 380-451) -/

/-- Substring test (a literal `re.search`). -/
def isSubstring (pat : List Char) : List Char → Bool
  | [] => decide (pat = [])
  | c :: cs => List.isPrefixOf pat (c :: cs) || isSubstring pat cs

/-- `re.search(r'ex\d+', s)`: the letters `ex` followed by a digit. -/
def hasExDigit : List Char → Bool
  | c1 :: c2 :: c3 :: rest =>
    (c1 = 'e' ∧ c2 = 'x' ∧ isDig c3) || hasExDigit (c2 :: c3 :: rest)
  | _ => false

/-- The primary patterns `\.htm$`, `\.html$` (IGNORECASE handled by
lower-casing the link first). -/
def is_primary (lhref : List Char) : Bool :=
  List.isSuffixOf ".htm".data lhref || List.isSuffixOf ".html".data lhref

/-- The exclusion patterns of `get_filing_document_url` (IGNORECASE
handled by lower-casing the link first). -/
def is_excluded (lhref : List Char) : Bool :=
  isSubstring "index.htm".data lhref || isSubstring "_htm.xml".data lhref ||
  List.isSuffixOf ".xsd".data lhref || List.isSuffixOf ".xml".data lhref ||
  List.isSuffixOf ".xls".data lhref || List.isSuffixOf ".xlsx".data lhref ||
  List.isSuffixOf ".pdf".data lhref || List.isSuffixOf ".jpg".data lhref ||
  List.isSuffixOf ".gif".data lhref || List.isSuffixOf ".png".data lhref ||
  hasExDigit lhref || isSubstring "graphic".data lhref

/-- The priority assigned to a surviving candidate link (src lines
425-431): 3 for a kind-token match, else 2 for a ticker match, else 1
for a link containing `htm` but not `xml`, else 0. -/
def docPriority (ticker filing_type href : String) : Nat :=
  let lhref := pyLower href.data
  let kindToken := (pyLower filing_type.data).filter (fun c => c ≠ '-')
  if isSubstring kindToken lhref then 3
  else if isSubstring (pyLower ticker.data) lhref then 2
  else if isSubstring "htm".data lhref ∧ ¬ isSubstring "xml".data lhref then 1
  else 0

/-- A candidate document: the link path and its priority.  (The
absolutisation of the link into a URL, a pure string prefix, is
orthogonal to link selection and omitted.) -/
structure CandidateDoc where
  href : String
  priority : Nat
deriving DecidableEq

/-- The candidate list: links surviving the primary/exclusion filters,
in first-seen order, each with its priority. -/
def buildCandidates (ticker filing_type : String) (hrefs : List String) : List CandidateDoc :=
  (hrefs.filter (fun h => is_primary (pyLower h.data) ∧ ¬ is_excluded (pyLower h.data))).map
    (fun h => ⟨h, docPriority ticker filing_type h⟩)

/-- Stable descending insertion: a new element goes before the first
element of priority ≤ its own, so equal priorities keep first-seen
order.  Models `candidate_docs.sort(key=priority, reverse=True)`
(Python's sort is stable). -/
def insertDesc (c : CandidateDoc) : List CandidateDoc → List CandidateDoc
  | [] => [c]
  | d :: ds => if d.priority ≤ c.priority then c :: d :: ds else d :: insertDesc c ds

/-- Stable sort by descending priority. -/
def sortByPriorityDesc (cs : List CandidateDoc) : List CandidateDoc :=
  cs.foldr insertDesc []

/-- Embedding of the candidate-selection core of
`get_filing_document_url` (src lines 397-447), taking the link paths
enumerated from the documents-index table as input: filter, score,
stable-sort by descending priority, return the best link (or `none`
when no candidate survives). -/
def get_filing_document_url (ticker filing_type : String) (hrefs : List String) : Option String :=
  let candidates := buildCandidates ticker filing_type hrefs
  if candidates = [] then none
  else ((sortByPriorityDesc candidates).head?).map (fun c => c.href)

/-- The maximal priority occurring in a candidate list (0 for the empty
list, matching the smallest assignable priority). -/
def maxPriority (cs : List CandidateDoc) : Nat :=
  (cs.map (fun c => c.priority)).foldr max 0

/-- Modelled from the spec (claim C6): the claim's scoring rule, where a
surviving candidate that is neither a kind-token nor a ticker match is a
"generic .htm match" and scores 1 — with no further condition.  Used to
compare the claimed rule with the code's `docPriority`. -/
def specDocPriority (ticker filing_type href : String) : Nat :=
  let lhref := pyLower href.data
  let kindToken := (pyLower filing_type.data).filter (fun c => c ≠ '-')
  if isSubstring kindToken lhref then 3
  else if isSubstring (pyLower ticker.data) lhref then 2
  else if is_primary lhref then 1
  else 0

/-- Modelled from the spec (claim C6): candidate selection under the
claim's scoring rule — highest `specDocPriority` wins, ties broken by
first-seen order. -/
def get_filing_document_url_spec (ticker filing_type : String) (hrefs : List String) : Option String :=
  let candidates :=
    (hrefs.filter (fun h => is_primary (pyLower h.data) ∧ ¬ is_excluded (pyLower h.data))).map
      (fun h => CandidateDoc.mk h (specDocPriority ticker filing_type h))
  (candidates.find? (fun c => c.priority = maxPriority candidates)).map (fun c => c.href)

/-! ## Text extraction control flow (`extract_text_from_url`, src lines 457-545) -/

/-- Embedding of the success/fallback policy of `extract_text_from_url`
(src lines 496-541).  The two markup-stripping passes (BeautifulSoup
plus the regex post-processing) are the black-box parameters `pass1`
and `pass2`; the function returns the reported success flag and the
text written to the output file (`none` when nothing is written). -/
def extract_text_from_url (pass1 pass2 : String → String) (response : String) :
    Bool × Option String :=
  let clean1 := pass1 response
  let cleanText := if clean1.length < 1000 then pass2 response else clean1
  if cleanText.length < 1000 then (false, none) else (true, some cleanText)

/-! ## Record normaliser (`parse_json_file` and its helpers, src lines 887-1060)

A group that is present but not a JSON object is collapsed to the empty
result here; in Python such ill-typed inputs either yield all-`None`
fields or abort the whole record through the enclosing exception
handler — no claim distinguishes those paths, and both are
deterministic. -/

/-- One normalised metric: the `<field>` (numeric) and `<field>_str`
(display) components stored by the extractor helpers. -/
abbrev MetricPair := Option JsonVal × Option JsonVal

/-- The production metrics dict built by `extract_production_data`. -/
structure ProductionData where
  oil_mbbl_per_day : MetricPair
  ngl_mbbl_per_day : MetricPair
  gas_mmcf_per_day : MetricPair
  boe_mboe_per_day : MetricPair
  oil_mmbls_total : MetricPair
  ngl_mmbls_total : MetricPair
  gas_bcf_total : MetricPair
  boe_mmboe_total : MetricPair
deriving DecidableEq

/-- Embedding of `extract_production_data` (src lines 887-911): empty
(`none`) when the filing data is falsy or has no `production` key,
otherwise each metric is resolved through `get_value_from_dict` with
its current-then-legacy candidate keys. -/
def extract_production_data (filing_data : JsonVal) : Option ProductionData :=
  match filing_data with
  | .obj o =>
    if truthy (.obj o) = false then none
    else
      match o.get "production" with
      | some (.obj prod) =>
        some
          { oil_mbbl_per_day := get_value_from_dict prod ["oil_production_mbbl_per_day", "oil_mbbl_per_day"]
            ngl_mbbl_per_day := get_value_from_dict prod ["ngl_production_mbbl_per_day", "ngl_mbbl_per_day"]
            gas_mmcf_per_day := get_value_from_dict prod ["gas_production_mmcf_per_day", "gas_mmcf_per_day"]
            boe_mboe_per_day := get_value_from_dict prod ["total_boe_mboe_per_day", "boe_mboe_per_day"]
            oil_mmbls_total := get_value_from_dict prod ["oil_production_mmbl_total", "oil_mmbls"]
            ngl_mmbls_total := get_value_from_dict prod ["ngl_production_mmbl_total", "ngl_mmbls"]
            gas_bcf_total := get_value_from_dict prod ["gas_production_bcf_total", "gas_bcf"]
            boe_mmboe_total := get_value_from_dict prod ["total_boe_mmboe_total", "boe_mmboe"] }
      | _ => none
  | _ => none

/-- The activity metrics dict built by `extract_activity_data`. -/
structure ActivityData where
  drilling_rigs : MetricPair
  gross_wells_drilled : MetricPair
  gross_wells_completed : MetricPair
  gross_wells_til : MetricPair
  net_wells_til : MetricPair
  avg_lateral_length_drilled : MetricPair
  avg_lateral_length_completed : MetricPair
  working_interest_percent : MetricPair
deriving DecidableEq

/-- One activity field: `parse_simplified_value(activity.get(field, ''))`. -/
def activityField (activity : JsonObj) (field : String) : MetricPair :=
  parse_simplified_value (activity.getD field (.str ""))

/-- Embedding of `extract_activity_data` (src lines 913-929). -/
def extract_activity_data (filing_data : JsonVal) : Option ActivityData :=
  match filing_data with
  | .obj o =>
    if truthy (.obj o) = false then none
    else
      match o.get "activity" with
      | some (.obj activity) =>
        some
          { drilling_rigs := activityField activity "drilling_rigs"
            gross_wells_drilled := activityField activity "gross_wells_drilled"
            gross_wells_completed := activityField activity "gross_wells_completed"
            gross_wells_til := activityField activity "gross_wells_til"
            net_wells_til := activityField activity "net_wells_til"
            avg_lateral_length_drilled := activityField activity "avg_lateral_length_drilled"
            avg_lateral_length_completed := activityField activity "avg_lateral_length_completed"
            working_interest_percent := activityField activity "working_interest_percent" }
      | _ => none
  | _ => none

/-- The revenue metrics dict built by `extract_revenue_data`. -/
structure RevenueData where
  oil_revenue_million : MetricPair
  ngl_revenue_million : MetricPair
  gas_revenue_million : MetricPair
  total_revenue_million : MetricPair
  revenue_per_boe : MetricPair
deriving DecidableEq

/-- Embedding of `extract_revenue_data` (src lines 931-949). -/
def extract_revenue_data (filing_data : JsonVal) : Option RevenueData :=
  match filing_data with
  | .obj o =>
    if truthy (.obj o) = false then none
    else
      match o.get "revenue" with
      | some (.obj revenue) =>
        some
          { oil_revenue_million := get_value_from_dict revenue ["oil_revenue_million_usd", "oil_revenue"]
            ngl_revenue_million := get_value_from_dict revenue ["ngl_revenue_million_usd", "ngl_revenue"]
            gas_revenue_million := get_value_from_dict revenue ["gas_revenue_million_usd", "gas_revenue"]
            total_revenue_million := get_value_from_dict revenue ["total_revenue_million_usd", "total_revenue"]
            revenue_per_boe := get_value_from_dict revenue ["revenue_per_boe_usd", "revenue_per_boe"] }
      | _ => none
  | _ => none

/-- The pricing metrics dict built by `extract_pricing_data`. -/
structure PricingData where
  realized_price_oil_per_bbl : MetricPair
  realized_price_ngl_per_bbl : MetricPair
  realized_price_gas_per_mcf : MetricPair
  realized_price_boe : MetricPair
deriving DecidableEq

/-- Embedding of `extract_pricing_data` (src lines 951-967); note it
reads from the `revenue` group, as the source does. -/
def extract_pricing_data (filing_data : JsonVal) : Option PricingData :=
  match filing_data with
  | .obj o =>
    if truthy (.obj o) = false then none
    else
      match o.get "revenue" with
      | some (.obj revenue) =>
        some
          { realized_price_oil_per_bbl := get_value_from_dict revenue ["realized_price_oil_usd_per_bbl", "oil_price_realized", "oil_price_per_bbl"]
            realized_price_ngl_per_bbl := get_value_from_dict revenue ["realized_price_ngl_usd_per_bbl", "ngl_price_realized", "ngl_price_per_bbl"]
            realized_price_gas_per_mcf := get_value_from_dict revenue ["realized_price_gas_usd_per_mcf", "gas_price_realized", "gas_price_per_mcf"]
            realized_price_boe := get_value_from_dict revenue ["realized_price_boe_usd_per_boe", "boe_price_realized", "boe_price"] }
      | _ => none
  | _ => none

/-- The cost metrics dict built by `extract_cost_data`. -/
structure CostData where
  production_cost_per_boe : MetricPair
  lease_operating_expense_per_boe : MetricPair
  transportation_cost_per_boe : MetricPair
  production_taxes_per_boe : MetricPair
  ddna_per_boe : MetricPair
  development_capex_million : MetricPair
  exploration_capex_million : MetricPair
  total_capex_million : MetricPair
deriving DecidableEq

/-- One plain cost field: `parse_simplified_value(costs.get(key, ''))`. -/
def costField (costs : JsonObj) (key : String) : MetricPair :=
  parse_simplified_value (costs.getD key (.str ""))

/-- One capex field with the source's nested default:
`costs.get(k1, costs.get(k2, ''))`. -/
def capexField (costs : JsonObj) (k1 k2 : String) : MetricPair :=
  parse_simplified_value (costs.getD k1 (costs.getD k2 (.str "")))

/-- Embedding of `extract_cost_data` (src lines 969-1007). -/
def extract_cost_data (filing_data : JsonVal) : Option CostData :=
  match filing_data with
  | .obj o =>
    if truthy (.obj o) = false then none
    else
      match o.get "costs" with
      | some (.obj costs) =>
        some
          { production_cost_per_boe := costField costs "production_cost_per_boe"
            lease_operating_expense_per_boe := costField costs "lease_operating_expense_per_boe"
            transportation_cost_per_boe := costField costs "transportation_cost_per_boe"
            production_taxes_per_boe := costField costs "production_taxes_per_boe"
            ddna_per_boe := costField costs "ddna_per_boe"
            development_capex_million := capexField costs "development_capex_million_usd" "development_capex"
            exploration_capex_million := capexField costs "exploration_capex_million_usd" "exploration_capex"
            total_capex_million := capexField costs "total_capex_million_usd" "total_capex" }
      | _ => none
  | _ => none

/-- The `company_info` block of a parsed record.  `filing_type` and
`filing_date` come from `data.get(...)` with no default, so a missing
key or a JSON `null` both yield `none`. -/
structure CompanyInfo where
  ticker : JsonVal
  cik : JsonVal
  company_name : JsonVal
  filing_type : Option JsonVal
  filing_date : Option JsonVal
  time_period : JsonVal
  quarter : JsonVal
  year : JsonVal
deriving DecidableEq

/-- The flat canonical record built by `parse_json_file`. -/
structure ParsedRecord where
  company_info : CompanyInfo
  production : Option ProductionData
  activity : Option ActivityData
  revenue : Option RevenueData
  pricing : Option PricingData
  costs : Option CostData
  basins : JsonVal
  raw_filing_data : JsonVal
deriving DecidableEq

/-- Embedding of `parse_json_file` (src lines 1009-1060) on the parsed
content of the JSON artifact (reading and `json.load`-ing the file is
the caller's input here).  Returns `none` when the `data` payload is
falsy or when the structure is so ill-typed that the Python code would
raise into its exception handler. -/
def parse_json_file (data : JsonVal) : Option ParsedRecord :=
  match data with
  | .obj d =>
    let filing_data := d.getD "data" (.obj .nil)
    if truthy filing_data = false then none
    else
      match filing_data with
      | .obj fd =>
        some
          { company_info :=
              { ticker := d.getD "companyName" (.str "UNKNOWN")
                cik := d.getD "cik" (.str "")
                company_name := d.getD "companyFullName" (.str "")
                filing_type := (d.get "fileType").bind pyOpt
                filing_date := (d.get "secFilingDate").bind pyOpt
                time_period := fd.getD "time_period" (.str "")
                quarter := fd.getD "quarter" (.str "")
                year := fd.getD "year" (.str "") }
            production := extract_production_data (.obj fd)
            activity := extract_activity_data (.obj fd)
            revenue := extract_revenue_data (.obj fd)
            pricing := extract_pricing_data (.obj fd)
            costs := extract_cost_data (.obj fd)
            basins := fd.getD "basins" (.obj .nil)
            raw_filing_data := .obj fd }
      | _ => none
  | _ => none

/-! ## Database insertion (`check_duplicate_filing` and
`insert_data_to_database`, src lines 1298-1527)

Tables are modelled as row lists; a stored SQL value is
`Option JsonVal` with `none` for SQL `NULL`.  psycopg2 binds Python
`None` (and hence JSON `null`) as `NULL`; SQL equality is never true
against `NULL`, and PostgreSQL's unique constraints treat `NULL` key
components as distinct, which the conflict test below reproduces. -/

/-- A Python value as the SQL value psycopg2 binds for it. -/
def bindVal (v : JsonVal) : Option JsonVal := pyOpt v

/-- An optional Python value as the SQL value psycopg2 binds for it. -/
def bindOpt (v : Option JsonVal) : Option JsonVal := v.bind pyOpt

/-- SQL equality of two stored values: false whenever either side is
`NULL`. -/
def sqlEq (a b : Option JsonVal) : Bool :=
  match a, b with
  | some x, some y => decide (x = y)
  | _, _ => false

/-- Embedding of `clean_val` (src lines 1322-1324): falsy values and
the exact string `"Not found"` become SQL `NULL`. -/
def clean_val (val : Option JsonVal) : Option JsonVal :=
  match val with
  | none => none
  | some v => if truthy v = false ∨ v = .str "Not found" then none else some v

/-- A row of `company_summary`. -/
structure SummaryRow where
  ticker : Option JsonVal
  cik : Option JsonVal
  company_name : Option JsonVal
  filing_type : Option JsonVal
  filing_date : Option JsonVal
  time_period : Option JsonVal
deriving DecidableEq

/-- A row of `production_data`. -/
structure ProductionRow where
  ticker : Option JsonVal
  company_name : Option JsonVal
  filing_type : Option JsonVal
  filing_date : Option JsonVal
  time_period : Option JsonVal
  quarter : Option JsonVal
  year : Option JsonVal
  oil_mbbl_per_day : Option JsonVal
  ngl_mbbl_per_day : Option JsonVal
  gas_mmcf_per_day : Option JsonVal
  boe_mboe_per_day : Option JsonVal
  oil_mmbls_total : Option JsonVal
  ngl_mmbls_total : Option JsonVal
  gas_bcf_total : Option JsonVal
  boe_mmboe_total : Option JsonVal
deriving DecidableEq

/-- A row of `activity_wells`. -/
structure ActivityRow where
  ticker : Option JsonVal
  company_name : Option JsonVal
  filing_type : Option JsonVal
  filing_date : Option JsonVal
  quarter : Option JsonVal
  year : Option JsonVal
  drilling_rigs : Option JsonVal
  gross_wells_drilled : Option JsonVal
  gross_wells_completed : Option JsonVal
  gross_wells_til : Option JsonVal
  net_wells_til : Option JsonVal
  avg_lateral_length_drilled : Option JsonVal
  avg_lateral_length_completed : Option JsonVal
  working_interest_percent : Option JsonVal
deriving DecidableEq

/-- A row of `revenue_data`. -/
structure RevenueRow where
  ticker : Option JsonVal
  company_name : Option JsonVal
  filing_type : Option JsonVal
  filing_date : Option JsonVal
  quarter : Option JsonVal
  year : Option JsonVal
  oil_revenue : Option JsonVal
  ngl_revenue : Option JsonVal
  gas_revenue : Option JsonVal
  total_revenue : Option JsonVal
  revenue_per_boe : Option JsonVal
deriving DecidableEq

/-- A row of `realized_prices`. -/
structure PricingRow where
  ticker : Option JsonVal
  company_name : Option JsonVal
  filing_type : Option JsonVal
  filing_date : Option JsonVal
  quarter : Option JsonVal
  year : Option JsonVal
  oil_price : Option JsonVal
  ngl_price : Option JsonVal
  gas_price : Option JsonVal
  boe_price : Option JsonVal
deriving DecidableEq

/-- A row of `cost_data`. -/
structure CostRow where
  ticker : Option JsonVal
  company_name : Option JsonVal
  filing_type : Option JsonVal
  filing_date : Option JsonVal
  quarter : Option JsonVal
  year : Option JsonVal
  production_cost_per_boe : Option JsonVal
  lease_operating_expense_per_boe : Option JsonVal
  transportation_cost_per_boe : Option JsonVal
  production_taxes_per_boe : Option JsonVal
  development_capex : Option JsonVal
  exploration_capex : Option JsonVal
  total_capex : Option JsonVal
  ddna_per_boe : Option JsonVal
deriving DecidableEq

/-- A row of `basin_data`. -/
structure BasinRow where
  ticker : Option JsonVal
  company_name : Option JsonVal
  sec_filing_date : Option JsonVal
  file_type : Option JsonVal
  basin_name : Option JsonVal
  gas_reserves : Option JsonVal
  gas_per_day : Option JsonVal
  oil_reserves : Option JsonVal
  oil_per_day : Option JsonVal
  ngl_reserves : Option JsonVal
  ngl_per_day : Option JsonVal
  total_boe : Option JsonVal
  boe_per_day : Option JsonVal
deriving DecidableEq

/-- The relational store: the seven tables written by
`insert_data_to_database`. -/
structure Database where
  company_summary : List SummaryRow
  production_data : List ProductionRow
  activity_wells : List ActivityRow
  revenue_data : List RevenueRow
  realized_prices : List PricingRow
  cost_data : List CostRow
  basin_data : List BasinRow
deriving DecidableEq

/-- `INSERT ... ON CONFLICT ... DO UPDATE`: when a row conflicts it is
replaced by the update (all non-key columns set from the excluded row,
key columns equal anyway), otherwise the new row is appended. -/
def upsertRow {ρ : Type} (conflict : ρ → Bool) (row : ρ) (t : List ρ) : List ρ :=
  if t.any conflict then t.map (fun r => if conflict r then row else r) else t ++ [row]

/-- Embedding of `check_duplicate_filing` (src lines 1298-1316): a
`company_summary` row with this company name, filing type and filing
date exists (SQL equality, so `NULL` never matches). -/
def check_duplicate_filing (company_name filing_type filing_date : Option JsonVal)
    (summary : List SummaryRow) : Bool :=
  summary.any (fun r =>
    sqlEq r.company_name company_name && sqlEq r.filing_type filing_type &&
    sqlEq r.filing_date filing_date)

/-- The display component of a metric in an optional group, as fetched
by `data['<group>'].get('<field>_str')` (missing group dict gives
`None`). -/
def groupStr {γ : Type} (g : Option γ) (f : γ → MetricPair) : Option JsonVal :=
  match g with
  | none => none
  | some x => (f x).2

/-- The `company_summary` row bound by the first INSERT (src lines
1346-1351). -/
def mkSummaryRow (r : ParsedRecord) : SummaryRow :=
  { ticker := bindVal r.company_info.ticker
    cik := bindVal r.company_info.cik
    company_name := bindVal r.company_info.company_name
    filing_type := bindOpt r.company_info.filing_type
    filing_date := bindOpt r.company_info.filing_date
    time_period := bindVal r.company_info.time_period }

/-- The `production_data` row (src lines 1358-1377): metric columns are
the `_str` display values through `clean_val`. -/
def mkProductionRow (r : ParsedRecord) : ProductionRow :=
  { ticker := bindVal r.company_info.ticker
    company_name := bindVal r.company_info.company_name
    filing_type := bindOpt r.company_info.filing_type
    filing_date := bindOpt r.company_info.filing_date
    time_period := bindVal r.company_info.time_period
    quarter := bindVal r.company_info.quarter
    year := bindVal r.company_info.year
    oil_mbbl_per_day := clean_val (groupStr r.production (fun g => g.oil_mbbl_per_day))
    ngl_mbbl_per_day := clean_val (groupStr r.production (fun g => g.ngl_mbbl_per_day))
    gas_mmcf_per_day := clean_val (groupStr r.production (fun g => g.gas_mmcf_per_day))
    boe_mboe_per_day := clean_val (groupStr r.production (fun g => g.boe_mboe_per_day))
    oil_mmbls_total := clean_val (groupStr r.production (fun g => g.oil_mmbls_total))
    ngl_mmbls_total := clean_val (groupStr r.production (fun g => g.ngl_mmbls_total))
    gas_bcf_total := clean_val (groupStr r.production (fun g => g.gas_bcf_total))
    boe_mmboe_total := clean_val (groupStr r.production (fun g => g.boe_mmboe_total)) }

/-- The `activity_wells` row (src lines 1381-1404). -/
def mkActivityRow (r : ParsedRecord) : ActivityRow :=
  { ticker := bindVal r.company_info.ticker
    company_name := bindVal r.company_info.company_name
    filing_type := bindOpt r.company_info.filing_type
    filing_date := bindOpt r.company_info.filing_date
    quarter := bindVal r.company_info.quarter
    year := bindVal r.company_info.year
    drilling_rigs := clean_val (groupStr r.activity (fun g => g.drilling_rigs))
    gross_wells_drilled := clean_val (groupStr r.activity (fun g => g.gross_wells_drilled))
    gross_wells_completed := clean_val (groupStr r.activity (fun g => g.gross_wells_completed))
    gross_wells_til := clean_val (groupStr r.activity (fun g => g.gross_wells_til))
    net_wells_til := clean_val (groupStr r.activity (fun g => g.net_wells_til))
    avg_lateral_length_drilled := clean_val (groupStr r.activity (fun g => g.avg_lateral_length_drilled))
    avg_lateral_length_completed := clean_val (groupStr r.activity (fun g => g.avg_lateral_length_completed))
    working_interest_percent := clean_val (groupStr r.activity (fun g => g.working_interest_percent)) }

/-- The `revenue_data` row (src lines 1408-1424). -/
def mkRevenueRow (r : ParsedRecord) : RevenueRow :=
  { ticker := bindVal r.company_info.ticker
    company_name := bindVal r.company_info.company_name
    filing_type := bindOpt r.company_info.filing_type
    filing_date := bindOpt r.company_info.filing_date
    quarter := bindVal r.company_info.quarter
    year := bindVal r.company_info.year
    oil_revenue := clean_val (groupStr r.revenue (fun g => g.oil_revenue_million))
    ngl_revenue := clean_val (groupStr r.revenue (fun g => g.ngl_revenue_million))
    gas_revenue := clean_val (groupStr r.revenue (fun g => g.gas_revenue_million))
    total_revenue := clean_val (groupStr r.revenue (fun g => g.total_revenue_million))
    revenue_per_boe := clean_val (groupStr r.revenue (fun g => g.revenue_per_boe)) }

/-- The `realized_prices` row (src lines 1428-1442). -/
def mkPricingRow (r : ParsedRecord) : PricingRow :=
  { ticker := bindVal r.company_info.ticker
    company_name := bindVal r.company_info.company_name
    filing_type := bindOpt r.company_info.filing_type
    filing_date := bindOpt r.company_info.filing_date
    quarter := bindVal r.company_info.quarter
    year := bindVal r.company_info.year
    oil_price := clean_val (groupStr r.pricing (fun g => g.realized_price_oil_per_bbl))
    ngl_price := clean_val (groupStr r.pricing (fun g => g.realized_price_ngl_per_bbl))
    gas_price := clean_val (groupStr r.pricing (fun g => g.realized_price_gas_per_mcf))
    boe_price := clean_val (groupStr r.pricing (fun g => g.realized_price_boe)) }

/-- The `cost_data` row (src lines 1446-1470). -/
def mkCostRow (r : ParsedRecord) : CostRow :=
  { ticker := bindVal r.company_info.ticker
    company_name := bindVal r.company_info.company_name
    filing_type := bindOpt r.company_info.filing_type
    filing_date := bindOpt r.company_info.filing_date
    quarter := bindVal r.company_info.quarter
    year := bindVal r.company_info.year
    production_cost_per_boe := clean_val (groupStr r.costs (fun g => g.production_cost_per_boe))
    lease_operating_expense_per_boe := clean_val (groupStr r.costs (fun g => g.lease_operating_expense_per_boe))
    transportation_cost_per_boe := clean_val (groupStr r.costs (fun g => g.transportation_cost_per_boe))
    production_taxes_per_boe := clean_val (groupStr r.costs (fun g => g.production_taxes_per_boe))
    development_capex := clean_val (groupStr r.costs (fun g => g.development_capex_million))
    exploration_capex := clean_val (groupStr r.costs (fun g => g.exploration_capex_million))
    total_capex := clean_val (groupStr r.costs (fun g => g.total_capex_million))
    ddna_per_boe := clean_val (groupStr r.costs (fun g => g.ddna_per_boe)) }

/-- One `basin_data` row (src lines 1480-1510): each metric is
`basin_data.get(field, 'Not found')` passed through `clean_val`. -/
def mkBasinRow (r : ParsedRecord) (basin_name : String) (bd : JsonObj) : BasinRow :=
  { ticker := bindVal r.company_info.ticker
    company_name := bindVal r.company_info.company_name
    sec_filing_date := bindOpt r.company_info.filing_date
    file_type := bindOpt r.company_info.filing_type
    basin_name := some (.str basin_name)
    gas_reserves := clean_val (some (bd.getD "gas_production_bcf_total" (.str "Not found")))
    gas_per_day := clean_val (some (bd.getD "gas_production_mmcf_per_day" (.str "Not found")))
    oil_reserves := clean_val (some (bd.getD "oil_production_mmbl_total" (.str "Not found")))
    oil_per_day := clean_val (some (bd.getD "oil_production_mbbl_per_day" (.str "Not found")))
    ngl_reserves := clean_val (some (bd.getD "ngl_production_mmbl_total" (.str "Not found")))
    ngl_per_day := clean_val (some (bd.getD "ngl_production_mbbl_per_day" (.str "Not found")))
    total_boe := clean_val (some (bd.getD "total_boe_mmboe_total" (.str "Not found")))
    boe_per_day := clean_val (some (bd.getD "total_boe_mboe_per_day" (.str "Not found"))) }

/-- The `basin_data` rows of a record: one per basin whose value is a
dict, in dict order (src lines 1473-1477 skip non-dict basin values). -/
def basinRowsAux (r : ParsedRecord) : JsonObj → List BasinRow
  | .nil => []
  | .cons name v rest =>
    match v with
    | .obj bd => mkBasinRow r name bd :: basinRowsAux r rest
    | _ => basinRowsAux r rest

/-- All basin rows of a record (a non-dict `basins` value yields no
rows). -/
def basinRows (r : ParsedRecord) : List BasinRow :=
  match r.basins with
  | .obj o => basinRowsAux r o
  | _ => []

/-- Conflict of two rows on `(ticker, filing_date, filing_type)` under
SQL equality. -/
def keyConflict (t1 d1 f1 t2 d2 f2 : Option JsonVal) : Bool :=
  sqlEq t1 t2 && sqlEq d1 d2 && sqlEq f1 f2

/-- Conflict test of the basin table: `(ticker, sec_filing_date,
file_type, basin_name)`. -/
def basinConflict (new : BasinRow) (old : BasinRow) : Bool :=
  keyConflict old.ticker old.sec_filing_date old.file_type new.ticker new.sec_filing_date new.file_type &&
  sqlEq old.basin_name new.basin_name

/-- The table updates of one insertion-loop iteration (the non-skipped
path of src lines 1345-1510): upsert one row into each scalar table and
one row per dict-valued basin. -/
def insertRecordTables (db : Database) (r : ParsedRecord) : Database :=
  { company_summary :=
      upsertRow (fun row => keyConflict row.ticker row.filing_date row.filing_type
        (mkSummaryRow r).ticker (mkSummaryRow r).filing_date (mkSummaryRow r).filing_type)
        (mkSummaryRow r) db.company_summary
    production_data :=
      upsertRow (fun row => keyConflict row.ticker row.filing_date row.filing_type
        (mkProductionRow r).ticker (mkProductionRow r).filing_date (mkProductionRow r).filing_type)
        (mkProductionRow r) db.production_data
    activity_wells :=
      upsertRow (fun row => keyConflict row.ticker row.filing_date row.filing_type
        (mkActivityRow r).ticker (mkActivityRow r).filing_date (mkActivityRow r).filing_type)
        (mkActivityRow r) db.activity_wells
    revenue_data :=
      upsertRow (fun row => keyConflict row.ticker row.filing_date row.filing_type
        (mkRevenueRow r).ticker (mkRevenueRow r).filing_date (mkRevenueRow r).filing_type)
        (mkRevenueRow r) db.revenue_data
    realized_prices :=
      upsertRow (fun row => keyConflict row.ticker row.filing_date row.filing_type
        (mkPricingRow r).ticker (mkPricingRow r).filing_date (mkPricingRow r).filing_type)
        (mkPricingRow r) db.realized_prices
    cost_data :=
      upsertRow (fun row => keyConflict row.ticker row.filing_date row.filing_type
        (mkCostRow r).ticker (mkCostRow r).filing_date (mkCostRow r).filing_type)
        (mkCostRow r) db.cost_data
    basin_data :=
      (basinRows r).foldl (fun t row => upsertRow (basinConflict row) row t) db.basin_data }

/-- One iteration of the insertion loop of `insert_data_to_database`
(src lines 1331-1512): skip if the duplicate check fires, otherwise
apply the table updates. -/
def insertRecord (db : Database) (r : ParsedRecord) : Database :=
  if check_duplicate_filing (bindVal r.company_info.company_name)
      (bindOpt r.company_info.filing_type) (bindOpt r.company_info.filing_date)
      db.company_summary then db
  else insertRecordTables db r

/-- Embedding of `insert_data_to_database` (src lines 1318-1527): the
records are inserted in order, each guarded by the duplicate check. -/
def insert_data_to_database (db : Database) (all_data : List ParsedRecord) : Database :=
  all_data.foldl insertRecord db

/-! ## Statement-support definitions

Vocabulary used only to state the claims (a well-grouped leading
number, sentinel-free tables); they are independent of the embedded
code above. -/

/-- Every character is an ASCII digit. -/
def isDigitList (ds : List Char) : Bool := ds.all (fun c => isDig c)

/-- The list does not start with a digit. -/
def headNotDig : List Char → Bool
  | [] => true
  | c :: _ => !(isDig c)

/-- The list does not start with a decimal point followed by a digit
(which would extend a number having no fractional part). -/
def noFracStart : List Char → Bool
  | '.' :: d :: _ => !(isDig d)
  | _ => true

/-- The list does not start with a comma followed by three digits
(which would extend the comma groups of a number). -/
def noGroupStart : List Char → Bool
  | ',' :: d1 :: d2 :: d3 :: _ => !(isDig d1 && isDig d2 && isDig d3)
  | _ => true

/-- The character rendering of comma thousands-groups. -/
def renderGroups (grps : List (List Char)) : List Char :=
  (grps.map (fun g => ',' :: g)).flatten

/-- The character rendering of an optional fractional part. -/
def renderFrac (frac : List Char) : List Char :=
  if frac = [] then [] else '.' :: frac

/-- The character rendering of a signed decimal number with optional
comma thousands-separators and optional fractional part. -/
def renderToken (sign : Bool) (intDs : List Char) (grps : List (List Char)) (frac : List Char) : List Char :=
  (if sign then ['-'] else []) ++ intDs ++ renderGroups grps ++ renderFrac frac

/-- The decimal value denoted by such a number: its digits (commas
dropped) read in base ten, plus the fraction digits scaled down, with
the sign applied. -/
def denotedValue (sign : Bool) (intDs : List Char) (grps : List (List Char)) (frac : List Char) : ℚ :=
  let mag : ℚ := (digitsToNat (intDs ++ grps.flatten) : ℚ) + (digitsToNat frac : ℚ) / (10 : ℚ) ^ frac.length
  if sign then -mag else mag

/-- The characters after the leading number do not extend it: no
further digit, and — when the number has no fractional part — no
decimal-point-plus-digit and no comma-plus-three-digit continuation. -/
def boundaryOK (frac : List Char) (rest : List Char) : Bool :=
  headNotDig rest && (if frac = [] then noFracStart rest && noGroupStart rest else true)

/-- No metric column of a `production_data` row holds the literal
sentinel string. -/
def productionRowClean (row : ProductionRow) : Bool :=
  row.oil_mbbl_per_day ≠ some (.str "Not found") ∧
  row.ngl_mbbl_per_day ≠ some (.str "Not found") ∧
  row.gas_mmcf_per_day ≠ some (.str "Not found") ∧
  row.boe_mboe_per_day ≠ some (.str "Not found") ∧
  row.oil_mmbls_total ≠ some (.str "Not found") ∧
  row.ngl_mmbls_total ≠ some (.str "Not found") ∧
  row.gas_bcf_total ≠ some (.str "Not found") ∧
  row.boe_mmboe_total ≠ some (.str "Not found")

/-- No metric column of an `activity_wells` row holds the sentinel. -/
def activityRowClean (row : ActivityRow) : Bool :=
  row.drilling_rigs ≠ some (.str "Not found") ∧
  row.gross_wells_drilled ≠ some (.str "Not found") ∧
  row.gross_wells_completed ≠ some (.str "Not found") ∧
  row.gross_wells_til ≠ some (.str "Not found") ∧
  row.net_wells_til ≠ some (.str "Not found") ∧
  row.avg_lateral_length_drilled ≠ some (.str "Not found") ∧
  row.avg_lateral_length_completed ≠ some (.str "Not found") ∧
  row.working_interest_percent ≠ some (.str "Not found")

/-- No metric column of a `revenue_data` row holds the sentinel. -/
def revenueRowClean (row : RevenueRow) : Bool :=
  row.oil_revenue ≠ some (.str "Not found") ∧
  row.ngl_revenue ≠ some (.str "Not found") ∧
  row.gas_revenue ≠ some (.str "Not found") ∧
  row.total_revenue ≠ some (.str "Not found") ∧
  row.revenue_per_boe ≠ some (.str "Not found")

/-- No metric column of a `realized_prices` row holds the sentinel. -/
def pricingRowClean (row : PricingRow) : Bool :=
  row.oil_price ≠ some (.str "Not found") ∧
  row.ngl_price ≠ some (.str "Not found") ∧
  row.gas_price ≠ some (.str "Not found") ∧
  row.boe_price ≠ some (.str "Not found")

/-- No metric column of a `cost_data` row holds the sentinel. -/
def costRowClean (row : CostRow) : Bool :=
  row.production_cost_per_boe ≠ some (.str "Not found") ∧
  row.lease_operating_expense_per_boe ≠ some (.str "Not found") ∧
  row.transportation_cost_per_boe ≠ some (.str "Not found") ∧
  row.production_taxes_per_boe ≠ some (.str "Not found") ∧
  row.development_capex ≠ some (.str "Not found") ∧
  row.exploration_capex ≠ some (.str "Not found") ∧
  row.total_capex ≠ some (.str "Not found") ∧
  row.ddna_per_boe ≠ some (.str "Not found")

/-- No metric column of a `basin_data` row holds the sentinel. -/
def basinRowClean (row : BasinRow) : Bool :=
  row.gas_reserves ≠ some (.str "Not found") ∧
  row.gas_per_day ≠ some (.str "Not found") ∧
  row.oil_reserves ≠ some (.str "Not found") ∧
  row.oil_per_day ≠ some (.str "Not found") ∧
  row.ngl_reserves ≠ some (.str "Not found") ∧
  row.ngl_per_day ≠ some (.str "Not found") ∧
  row.total_boe ≠ some (.str "Not found") ∧
  row.boe_per_day ≠ some (.str "Not found")

/-- No metric column anywhere in the store holds the literal
`"Not found"` sentinel (the `company_summary` table has no metric
columns). -/
def dbClean (db : Database) : Bool :=
  db.production_data.all productionRowClean &&
  db.activity_wells.all activityRowClean &&
  db.revenue_data.all revenueRowClean &&
  db.realized_prices.all pricingRowClean &&
  db.cost_data.all costRowClean &&
  db.basin_data.all basinRowClean

/-! ## Theorems -/

/-- C2: for every sentinel input string — "Not found", "n/m", "nm",
"n.m.", the empty string, or "none", in any letter case —
`parse_simplified_value` returns a MetricValue whose numeric component
is null and whose display component is the original input, and (being a
total function) it never raises. -/
theorem C2_sentinel_inputs (s : String)
    (hs : String.mk (pyLower s.data) ∈ sentinelList) :
    parse_simplified_value (.str s) = (none, some (.str s)) := by
  by_cases h : truthy (.str s) = false ∨ JsonVal.str s = .str "Not found"
  · unfold parse_simplified_value
    rw [if_pos h]
    rfl
  · unfold parse_simplified_value
    rw [if_neg h]
    show (extract_numeric_value (JsonVal.str s), some (JsonVal.str s)) =
      ((none : Option JsonVal), some (JsonVal.str s))
    have e : extract_numeric_value (JsonVal.str s) =
        (if String.mk (pyLower s.data) ∈ sentinelList then none
          else
            match searchNum (stripCurrency s.data) with
            | some t => some (JsonVal.num (ratOfToken t))
            | none => none) := rfl
    rw [e, if_pos hs]

/-- Witness for C2 at the concrete sentinel "N/M". -/
theorem C2_sentinel_inputs_witness :
    String.mk (pyLower "N/M".data) ∈ sentinelList ∧
    parse_simplified_value (.str "N/M") = (none, some (.str "N/M")) :=
  ⟨by decide, C2_sentinel_inputs "N/M" (by decide)⟩

/-- C3: `get_value_from_dict` returns the parsed value of the first
candidate key present in the mapping (skipping absent keys, even when
the present key's value is the "Not found" sentinel), and `(None, None)`
when no candidate key is present; in particular the first-listed
(current) key wins over a later (legacy) key. -/
theorem C3_first_key_wins :
    (∀ (data_dict : JsonObj) (pre : List String) (k : String) (v : JsonVal) (post : List String),
      (∀ k2 ∈ pre, data_dict.get k2 = none) → data_dict.get k = some v →
      get_value_from_dict data_dict (pre ++ k :: post) = parse_simplified_value v) ∧
    (∀ (data_dict : JsonObj) (keys : List String),
      (∀ k2 ∈ keys, data_dict.get k2 = none) →
      get_value_from_dict data_dict keys = (none, none)) := by
  constructor
  · intro dd pre k v post hpre hk
    induction pre with
    | nil => simp [get_value_from_dict, hk]
    | cons p ps ih =>
      have hp : dd.get p = none := hpre p (by simp)
      simp only [List.cons_append, get_value_from_dict, hp]
      exact ih fun k2 hk2 => hpre k2 (by simp [hk2])
  · intro dd keys h
    induction keys with
    | nil => rfl
    | cons p ps ih =>
      have hp : dd.get p = none := h p (by simp)
      simp only [get_value_from_dict, hp]
      exact ih fun k2 hk2 => h k2 (by simp [hk2])

/-- Witness for C3: a group holding both the current and the legacy key
with different values resolves to the current key's parsed value. -/
theorem C3_first_key_wins_witness :
    get_value_from_dict
      (JsonObj.cons "oil_production_mbbl_per_day" (.str "10 MBbl/d")
        (JsonObj.cons "oil_mbbl_per_day" (.str "99 MBbl/d") .nil))
      ["oil_production_mbbl_per_day", "oil_mbbl_per_day"] =
      parse_simplified_value (.str "10 MBbl/d") :=
  C3_first_key_wins.1 _ [] "oil_production_mbbl_per_day" (JsonVal.str "10 MBbl/d")
    ["oil_mbbl_per_day"] (by simp) (by decide)

/-- C9: every truthy non-string, non-dict value is passed through
unchanged by `parse_simplified_value`: both the numeric and the display
component are the original value. -/
theorem C9_nonstring_passthrough (v : JsonVal)
    (ht : truthy v = true)
    (hstr : ∀ s : String, v ≠ .str s)
    (hobj : ∀ o : JsonObj, v ≠ .obj o) :
    parse_simplified_value v = (some v, some v) := by
  have h1 : ¬ (truthy v = false ∨ v = .str "Not found") := by
    rintro (h | h)
    · rw [ht] at h; exact Bool.noConfusion h
    · exact hstr _ h
  unfold parse_simplified_value
  rw [if_neg h1]
  cases v with
  | str s => exact absurd rfl (hstr s)
  | obj o => exact absurd rfl (hobj o)
  | null => simp [truthy] at ht
  | num q => rfl
  | bool b => rfl
  | arr a => rfl

/-- Witness for C9 at the concrete bare number 42. -/
theorem C9_nonstring_passthrough_witness :
    truthy (.num 42) = true ∧
    parse_simplified_value (.num 42) = (some (.num 42), some (.num 42)) :=
  ⟨by decide,
    C9_nonstring_passthrough (.num 42) (by decide)
      (fun s h => by cases h) (fun o h => by cases h)⟩

/-- C8: the record normaliser is deterministic — identical parsed JSON
artifact input yields identical canonical record output (the embedded
`parse_json_file` and its five helpers are functions of their input
alone, with no hidden state). -/
theorem C8_normalizer_deterministic (d1 d2 : JsonVal) (h : d1 = d2) :
    parse_json_file d1 = parse_json_file d2 :=
  congrArg parse_json_file h

/-- Witness for C8 at a concrete artifact value. -/
theorem C8_normalizer_deterministic_witness :
    parse_json_file (.obj (.cons "data" (.obj (.cons "year" (.str "2025") .nil)) .nil)) =
    parse_json_file (.obj (.cons "data" (.obj (.cons "year" (.str "2025") .nil)) .nil)) :=
  C8_normalizer_deterministic _ _ rfl

/-- C4: `extract_metrics` prefers the contents of a fenced json code
block when present (`preferredText`), returns success with the parsed
object when that text parses, returns success with the raw text and a
"text" format marker when parsing fails (the model output is never
discarded), and returns failure with the message on a transport/model
error. -/
theorem C4_response_handling {J : Type} (parseJson : String → Option J) (response : String) :
    (∀ j, parseJson (preferredText response) = some j →
      extract_metrics parseJson (.ok response) =
        ⟨true, some (Sum.inl j), none, none⟩) ∧
    (parseJson (preferredText response) = none →
      extract_metrics parseJson (.ok response) =
        ⟨true, some (Sum.inr (preferredText response)), some "text", none⟩) ∧
    (∀ e : String, extract_metrics parseJson (.error e) = ⟨false, none, none, some e⟩) := by
  have key : extract_metrics parseJson (.ok response) =
      (match parseJson (preferredText response) with
        | some parsed => ⟨true, some (Sum.inl parsed), none, none⟩
        | none => ⟨true, some (Sum.inr (preferredText response)), some "text", none⟩) := rfl
  refine ⟨?_, ?_, fun e => rfl⟩
  · intro j hj
    rw [key, hj]
  · intro hn
    rw [key, hn]

/-- Witness for C4: a fenced response whose fenced body parses. -/
theorem C4_response_handling_witness :
    (fun s => if s = "ok" then some true else none) (preferredText "```json\nok\n```") = some true ∧
    extract_metrics (fun s => if s = "ok" then some true else none)
      (.ok "```json\nok\n```") = ⟨true, some (Sum.inl true), none, none⟩ :=
  ⟨by decide,
    (C4_response_handling (fun s => if s = "ok" then some true else none)
      "```json\nok\n```").1 true (by decide)⟩

/-- C7: `extract_text_from_url` uses the fallback pass exactly when the
primary pass yields under 1000 characters, reports failure (without
writing the output) exactly when the governing text is still under 1000
characters, and succeeds with the text at or above 1000 characters. -/
theorem C7_extraction_floor (pass1 pass2 : String → String) (response : String) :
    (1000 ≤ (pass1 response).length →
      extract_text_from_url pass1 pass2 response = (true, some (pass1 response))) ∧
    ((pass1 response).length < 1000 → (pass2 response).length < 1000 →
      extract_text_from_url pass1 pass2 response = (false, none)) ∧
    ((pass1 response).length < 1000 → 1000 ≤ (pass2 response).length →
      extract_text_from_url pass1 pass2 response = (true, some (pass2 response))) := by
  have key : extract_text_from_url pass1 pass2 response =
      (if (if (pass1 response).length < 1000 then pass2 response else pass1 response).length < 1000
        then (false, none)
        else (true, some (if (pass1 response).length < 1000 then pass2 response else pass1 response))) := rfl
  refine ⟨?_, ?_, ?_⟩
  · intro h1
    rw [key, if_neg (show ¬ (pass1 response).length < 1000 from by omega),
      if_neg (show ¬ (pass1 response).length < 1000 from by omega)]
  · intro h1 h2
    rw [key, if_pos (show (pass1 response).length < 1000 from h1),
      if_pos (show (pass2 response).length < 1000 from h2)]
  · intro h1 h2
    rw [key, if_pos (show (pass1 response).length < 1000 from h1),
      if_neg (show ¬ (pass2 response).length < 1000 from by omega)]

/-- Witness for C7: a long primary pass succeeds without fallback. -/
theorem C7_extraction_floor_witness :
    1000 ≤ ((fun (_ : String) => String.mk (List.replicate 1200 'a')) "").length ∧
    extract_text_from_url (fun _ => String.mk (List.replicate 1200 'a')) (fun _ => "") "" =
      (true, some (String.mk (List.replicate 1200 'a'))) := by
  have h : 1000 ≤ ((fun (_ : String) => String.mk (List.replicate 1200 'a')) "").length := by
    show 1000 ≤ (List.replicate 1200 'a').length
    rw [List.length_replicate]
    norm_num
  exact ⟨h, (C7_extraction_floor (fun _ => String.mk (List.replicate 1200 'a')) (fun _ => "") "").1 h⟩

/-- A filter that yields a cons splits the original list into dropped
elements, the head, and a tail. -/
theorem filter_eq_cons_split {α : Type} (p : α → Bool) :
    ∀ (l : List α) (c : α) (tl : List α), l.filter p = c :: tl →
      ∃ l1 l2, l = l1 ++ c :: l2 ∧ (∀ y ∈ l1, p y = false) ∧ p c = true := by
  intro l
  induction l with
  | nil => intro c tl h; cases h
  | cons a as ih =>
    intro c tl h
    by_cases hp : p a = true
    · rw [List.filter_cons_of_pos hp] at h
      injection h with h1 h2
      exact ⟨[], as, by rw [h1]; rfl, by simp, h1 ▸ hp⟩
    · rw [List.filter_cons_of_neg (by simpa using hp)] at h
      obtain ⟨l1, l2, hl, hdrop, hc⟩ := ih c tl h
      refine ⟨a :: l1, l2, by rw [hl]; rfl, ?_, hc⟩
      intro y hy
      rcases List.mem_cons.mp hy with rfl | hy2
      · simpa using hp
      · exact hdrop y hy2

/-- A digit's numeric code. -/
theorem isDig_toNat {c : Char} (h : isDig c = true) :
    48 ≤ c.toNat ∧ c.toNat ≤ 57 := by
  simpa [isDig] using h

/-- ASCII lower-casing fixes digits. -/
theorem pyLowerChar_of_isDig {c : Char} (h : isDig c = true) : pyLowerChar c = c := by
  have h2 := isDig_toNat h
  unfold pyLowerChar
  rw [if_neg (by omega)]

/-- A string whose currency-stripped form starts with a sign or digit
is neither a sentinel spelling nor the exact string "Not found". -/
theorem sentinel_head_excluded (s : String) (c : Char) (tl : List Char)
    (hsplit : stripCurrency s.data = c :: tl) (hc : c = '-' ∨ isDig c = true) :
    String.mk (pyLower s.data) ∉ sentinelList ∧ s ≠ "Not found" := by
  obtain ⟨l1, l2, hl, hdrop, _⟩ := filter_eq_cons_split _ s.data c tl hsplit
  constructor
  · intro hmem
    have hL : pyLower s.data = l1.map pyLowerChar ++ pyLowerChar c :: l2.map pyLowerChar := by
      rw [hl]; simp [pyLower]
    have hhead : ((pyLower s.data).headD ' ').toNat = 36 ∨
        ((pyLower s.data).headD ' ').toNat = 37 ∨
        ((pyLower s.data).headD ' ').toNat = 45 ∨
        (48 ≤ ((pyLower s.data).headD ' ').toNat ∧ ((pyLower s.data).headD ' ').toNat ≤ 57) := by
      rw [hL]
      cases l1 with
      | nil =>
        simp only [List.map_nil, List.nil_append, List.headD_cons]
        rcases hc with rfl | hdig
        · right; right; left; decide
        · rw [pyLowerChar_of_isDig hdig]
          right; right; right; exact isDig_toNat hdig
      | cons y l1x =>
        have hy := hdrop y (by simp)
        have hy2 : ¬ (y ≠ '$' ∧ y ≠ '%') := by simpa using hy
        have hy3 : y = '$' ∨ y = '%' := by tauto
        simp only [List.map_cons, List.cons_append, List.headD_cons]
        rcases hy3 with rfl | rfl
        · left; decide
        · right; left; decide
    have hne : ((pyLower s.data).headD ' ').toNat ≠ 110 ∧
        ((pyLower s.data).headD ' ').toNat ≠ 32 := by
      rcases hhead with h | h | h | h <;> omega
    have hproj : ∀ t : String, String.mk (pyLower s.data) = t →
        ((pyLower s.data).headD ' ').toNat = ((t.data).headD ' ').toNat :=
      fun t ht => congrArg (fun u => ((u.data).headD ' ').toNat) ht
    simp only [sentinelList, List.mem_cons, List.not_mem_nil, or_false] at hmem
    rcases hmem with h | h | h | h | h | h
    · exact hne.1 ((hproj _ h).trans (by decide))
    · exact hne.1 ((hproj _ h).trans (by decide))
    · exact hne.1 ((hproj _ h).trans (by decide))
    · exact hne.1 ((hproj _ h).trans (by decide))
    · exact hne.2 ((hproj _ h).trans (by decide))
    · exact hne.1 ((hproj _ h).trans (by decide))
  · intro hNF
    subst hNF
    have h1 : (stripCurrency "Not found".data).headD ' ' = 'N' := by decide
    have h2 : (stripCurrency "Not found".data).headD ' ' = c := by rw [hsplit]; rfl
    rw [h2] at h1
    rcases hc with rfl | hdig
    · exact absurd h1 (by decide)
    · rw [h1] at hdig; exact absurd hdig (by decide)

/-- Greedy `\d{1,3}` consumes exactly a 1-3 digit block when what
follows is not a digit. -/
theorem takeUpTo3_exact (ds t : List Char) (hd : isDigitList ds = true)
    (hne : ds ≠ []) (hlen : ds.length ≤ 3) (ht : headNotDig t = true) :
    takeUpTo3Digits (ds ++ t) = (ds, t) := by
  have hstop : ∀ (u : List Char), headNotDig u = true →
      (u = [] ∨ ∃ c cs, u = c :: cs ∧ isDig c = false) := by
    intro u hu
    cases u with
    | nil => exact Or.inl rfl
    | cons c cs => exact Or.inr ⟨c, cs, rfl, by simpa [headNotDig] using hu⟩
  rcases ds with _ | ⟨a, _ | ⟨b, _ | ⟨c, _ | ⟨d, r⟩⟩⟩⟩
  · exact absurd rfl hne
  · have ha : isDig a = true := by simpa [isDigitList] using hd
    rcases hstop t ht with rfl | ⟨c2, cs2, rfl, h2⟩
    · simp [takeUpTo3Digits, ha]
    · simp [takeUpTo3Digits, ha, h2]
  · have ha : isDig a = true ∧ isDig b = true := by simpa [isDigitList] using hd
    rcases hstop t ht with rfl | ⟨c2, cs2, rfl, h2⟩
    · simp [takeUpTo3Digits, ha.1, ha.2]
    · simp [takeUpTo3Digits, ha.1, ha.2, h2]
  · have ha : isDig a = true ∧ isDig b = true ∧ isDig c = true := by
      simpa [isDigitList] using hd
    simp [takeUpTo3Digits, ha.1, ha.2.1, ha.2.2]
  · simp at hlen

/-- Greedy `(?:,\d{3})*` consumes nothing where no comma group starts. -/
theorem takeGroups_no_start (t : List Char) (ht : noGroupStart t = true) :
    takeGroups t = ([], t) := by
  rcases t with _ | ⟨c0, _ | ⟨a, _ | ⟨b, _ | ⟨c, rest⟩⟩⟩⟩
  · rfl
  · by_cases hc : c0 = ',' <;> simp [takeGroups, hc]
  · by_cases hc : c0 = ',' <;> simp [takeGroups, hc]
  · by_cases hc : c0 = ',' <;> simp [takeGroups, hc]
  · by_cases hc : c0 = ','
    · subst hc
      have hcond : ¬ (isDig a = true ∧ isDig b = true ∧ isDig c = true) := by
        intro hcon
        simp [noGroupStart, hcon.1, hcon.2.1, hcon.2.2] at ht
      simp only [takeGroups, if_neg hcond]
    · simp [takeGroups, hc]

/-- Greedy `(?:,\d{3})*` consumes exactly the rendered comma groups
when what follows starts no further group. -/
theorem takeGroups_exact (grps : List (List Char)) (t : List Char)
    (hg : ∀ g ∈ grps, g.length = 3 ∧ isDigitList g = true)
    (ht : noGroupStart t = true) :
    takeGroups (renderGroups grps ++ t) = (renderGroups grps, t) := by
  induction grps with
  | nil =>
    simpa [renderGroups] using takeGroups_no_start t ht
  | cons g gs ih =>
    obtain ⟨hg3, hgd⟩ := hg g (by simp)
    rcases g with _ | ⟨d1, _ | ⟨d2, _ | ⟨d3, _ | _⟩⟩⟩ <;> simp at hg3
    have hds : isDig d1 = true ∧ isDig d2 = true ∧ isDig d3 = true := by
      simpa [isDigitList] using hgd
    have hrec := ih (fun g2 hg2 => hg g2 (by simp [hg2]))
    have hshape : renderGroups ([d1, d2, d3] :: gs) ++ t =
        ',' :: d1 :: d2 :: d3 :: (renderGroups gs ++ t) := by
      simp [renderGroups]
    rw [hshape]
    simp only [takeGroups, if_pos hds, hrec]
    simp [renderGroups]

/-- Greedy `\d+` consumes exactly a digit block when what follows is
not a digit. -/
theorem takeDigits_exact (ds t : List Char) (hd : isDigitList ds = true)
    (ht : headNotDig t = true) :
    takeDigitsGreedy (ds ++ t) = (ds, t) := by
  induction ds with
  | nil =>
    cases t with
    | nil => rfl
    | cons c cs =>
      have : isDig c = false := by simpa [headNotDig] using ht
      simp [takeDigitsGreedy, this]
  | cons a as ih =>
    have ha : isDig a = true ∧ isDigitList as = true := by
      simpa [isDigitList] using hd
    simp [takeDigitsGreedy, ha.1, ih ha.2]

/-- Greedy `(?:\.\d+)?` consumes nothing where no fraction starts. -/
theorem takeFrac_no_start (t : List Char) (ht : noFracStart t = true) :
    takeFrac t = ([], t) := by
  rcases t with _ | ⟨c0, _ | ⟨d, cs⟩⟩
  · rfl
  · by_cases hc : c0 = '.' <;> simp [takeFrac, hc]
  · by_cases hc : c0 = '.'
    · subst hc
      have hd : isDig d = false := by simpa [noFracStart] using ht
      simp [takeFrac, hd]
    · simp [takeFrac, hc]

/-- Greedy `(?:\.\d+)?` consumes exactly the rendered fraction. -/
theorem takeFrac_exact (frac t : List Char) (hf : isDigitList frac = true)
    (h1 : frac = [] → noFracStart t = true)
    (h2 : frac ≠ [] → headNotDig t = true) :
    takeFrac (renderFrac frac ++ t) = (renderFrac frac, t) := by
  cases frac with
  | nil =>
    simpa [renderFrac] using takeFrac_no_start t (h1 rfl)
  | cons f fs =>
    have hfd : isDig f = true ∧ isDigitList fs = true := by
      simpa [isDigitList] using hf
    have hrest := takeDigits_exact fs t hfd.2 (h2 (by simp))
    simp [renderFrac, takeFrac, hfd.1, hrest]

/-- Unpacking `boundaryOK`. -/
theorem boundaryOK_parts (frac rest : List Char) (h : boundaryOK frac rest = true) :
    headNotDig rest = true ∧
      (frac = [] → noFracStart rest = true ∧ noGroupStart rest = true) := by
  by_cases hf : frac = []
  · subst hf
    simp [boundaryOK] at h
    exact ⟨h.1, fun _ => ⟨h.2.1, h.2.2⟩⟩
  · simp [boundaryOK, hf] at h
    exact ⟨h, fun hc => absurd hc hf⟩

/-- What follows the integer digits of a well-grouped number never
starts with a digit. -/
theorem headNotDig_after_int (grps : List (List Char)) (frac rest : List Char)
    (hrest : headNotDig rest = true) :
    headNotDig (renderGroups grps ++ (renderFrac frac ++ rest)) = true := by
  cases grps with
  | cons g gs =>
    simp only [renderGroups, List.map_cons, List.flatten_cons, List.cons_append,
      List.append_assoc]
    rfl
  | nil =>
    cases frac with
    | cons f fs =>
      simp only [renderGroups, List.map_nil, List.flatten_nil, List.nil_append, renderFrac,
        if_neg (by simp : ¬ (f :: fs : List Char) = []), List.cons_append]
      rfl
    | nil => simpa [renderGroups, renderFrac] using hrest

/-- What follows the comma groups of a well-grouped number never starts
another comma group. -/
theorem noGroupStart_after_groups (frac rest : List Char)
    (h : frac = [] → noGroupStart rest = true) :
    noGroupStart (renderFrac frac ++ rest) = true := by
  cases frac with
  | nil => simpa [renderFrac] using h rfl
  | cons f fs =>
    show noGroupStart ('.' :: f :: (fs ++ rest)) = true
    rcases (fs ++ rest) with _ | ⟨x, _ | ⟨y, l⟩⟩ <;> rfl

/-- The number pattern, matched at the start of a string that begins
with a well-grouped signed decimal, consumes exactly that number. -/
theorem matchNumAt_exact (sign : Bool) (intDs : List Char) (grps : List (List Char))
    (frac rest : List Char)
    (hint : isDigitList intDs = true) (hne : intDs ≠ []) (hlen : intDs.length ≤ 3)
    (hgrps : ∀ g ∈ grps, g.length = 3 ∧ isDigitList g = true)
    (hfrac : isDigitList frac = true)
    (hbound : boundaryOK frac rest = true) :
    matchNumAt (renderToken sign intDs grps frac ++ rest) =
      some (renderToken sign intDs grps frac) := by
  obtain ⟨hrest_nd, hempty⟩ := boundaryOK_parts frac rest hbound
  have htail_nd : headNotDig (renderGroups grps ++ (renderFrac frac ++ rest)) = true :=
    headNotDig_after_int grps frac rest hrest_nd
  have hgs : noGroupStart (renderFrac frac ++ rest) = true :=
    noGroupStart_after_groups frac rest (fun hf => (hempty hf).2)
  have h3 := takeUpTo3_exact intDs (renderGroups grps ++ (renderFrac frac ++ rest))
    hint hne hlen htail_nd
  have hG := takeGroups_exact grps (renderFrac frac ++ rest) hgrps hgs
  have hF := takeFrac_exact frac rest hfrac (fun hf => (hempty hf).1) (fun _ => hrest_nd)
  rcases intDs with _ | ⟨a, as⟩
  · exact absurd rfl hne
  have ha : isDig a = true := by
    have := hint
    simp [isDigitList] at this
    exact this.1
  have hand : ¬ a = '-' := by
    intro h
    rw [h] at ha
    exact absurd ha (by decide)
  simp only [List.cons_append] at h3
  cases sign with
  | true =>
    have hshape : renderToken true (a :: as) grps frac ++ rest =
        '-' :: ((a :: as) ++ (renderGroups grps ++ (renderFrac frac ++ rest))) := by
      simp [renderToken, List.append_assoc]
    rw [hshape]
    simp only [matchNumAt, List.headD_cons, if_pos rfl, List.tail_cons]
    simp [h3, hG, hF, renderToken, List.append_assoc]
  | false =>
    have hshape : renderToken false (a :: as) grps frac ++ rest =
        (a :: as) ++ (renderGroups grps ++ (renderFrac frac ++ rest)) := by
      simp [renderToken, List.append_assoc]
    rw [hshape]
    simp only [matchNumAt, List.cons_append, List.headD_cons, if_neg hand]
    simp [h3, hG, hF, renderToken, List.append_assoc]

/-- `re.search` finds a match anchored at the first position. -/
theorem searchNum_of_matchAt (c : Char) (cs t : List Char)
    (h : matchNumAt (c :: cs) = some t) : searchNum (c :: cs) = some t := by
  simp [searchNum, h]

/-- A digit list passes the comma filter unchanged. -/
theorem filter_comma_digits (l : List Char) (hl : isDigitList l = true) :
    l.filter (fun c => c ≠ ',') = l := by
  rw [List.filter_eq_self]
  intro c hc
  simp only [isDigitList, List.all_eq_true] at hl
  have hcd := hl c hc
  simp only [decide_eq_true_eq]
  intro h
  rw [h] at hcd
  exact absurd hcd (by decide)

/-- The comma filter of rendered groups is their digit content. -/
theorem filter_comma_groups (grps : List (List Char))
    (hg : ∀ g ∈ grps, g.length = 3 ∧ isDigitList g = true) :
    (renderGroups grps).filter (fun c => c ≠ ',') = grps.flatten := by
  induction grps with
  | nil => rfl
  | cons g gs ih =>
    obtain ⟨_, hgd⟩ := hg g (by simp)
    have hgs := ih fun g2 hg2 => hg g2 (by simp [hg2])
    have hshape : renderGroups (g :: gs) = (',' :: g) ++ renderGroups gs := by
      simp [renderGroups]
    rw [hshape, List.filter_append, List.filter_cons]
    rw [if_neg (by simp)]
    rw [filter_comma_digits g hgd, hgs]
    simp [List.flatten]

/-- The comma filter of a rendered fraction is itself. -/
theorem comma_not_mem (l : List Char) (hl : isDigitList l = true) : ¬ (',' ∈ l) := by
  intro h
  simp only [isDigitList, List.all_eq_true] at hl
  exact absurd (hl ',' h) (by decide)

theorem filter_comma_frac (frac : List Char) (hf : isDigitList frac = true) :
    (renderFrac frac).filter (fun c => c ≠ ',') = renderFrac frac := by
  rw [List.filter_eq_self]
  intro c hc
  simp only [decide_eq_true_eq]
  intro hceq
  subst hceq
  cases frac with
  | nil => simp [renderFrac] at hc
  | cons f fs =>
    simp only [renderFrac, if_neg (by simp : ¬ (f :: fs : List Char) = [])] at hc
    rcases List.mem_cons.mp hc with h | h
    · exact absurd h (by decide)
    · exact comma_not_mem _ hf h

/-- `takeWhile`/`dropWhile` on digits split a digit block from a
non-digit continuation. -/
theorem takeWhile_digits_append (ds t : List Char) (hd : isDigitList ds = true)
    (ht : headNotDig t = true) :
    (ds ++ t).takeWhile (fun c => isDig c) = ds ∧
      (ds ++ t).dropWhile (fun c => isDig c) = t := by
  induction ds with
  | nil =>
    cases t with
    | nil => exact ⟨rfl, rfl⟩
    | cons c cs =>
      have : isDig c = false := by simpa [headNotDig] using ht
      simp [List.takeWhile_cons, List.dropWhile_cons, this]
  | cons a as ih =>
    have ha : isDig a = true ∧ isDigitList as = true := by simpa [isDigitList] using hd
    have := ih ha.2
    simp [List.takeWhile_cons, List.dropWhile_cons, ha.1, this.1, this.2]

/-- Parsing the matched token of a well-grouped number yields exactly
its denoted decimal value. -/
theorem ratOfToken_denotes (sign : Bool) (intDs : List Char) (grps : List (List Char))
    (frac : List Char)
    (hint : isDigitList intDs = true) (hne : intDs ≠ [])
    (hgrps : ∀ g ∈ grps, g.length = 3 ∧ isDigitList g = true)
    (hfrac : isDigitList frac = true) :
    ratOfToken (renderToken sign intDs grps frac) = denotedValue sign intDs grps frac := by
  rcases intDs with _ | ⟨a, as⟩
  · exact absurd rfl hne
  have ha : isDig a = true := by
    have := hint
    simp [isDigitList] at this
    exact this.1
  have hand : ¬ a = '-' := by
    intro h
    rw [h] at ha
    exact absurd ha (by decide)
  have hdall : isDigitList ((a :: as) ++ grps.flatten) = true := by
    simp only [isDigitList, List.all_append]
    refine (Bool.and_eq_true _ _).mpr ⟨hint, ?_⟩
    simp only [List.all_eq_true]
    intro c hc
    obtain ⟨g, hgmem, hcg⟩ := List.mem_flatten.mp hc
    have hg2 := (hgrps g hgmem).2
    simp only [isDigitList, List.all_eq_true] at hg2
    exact hg2 c hcg
  have hfracnd : headNotDig (renderFrac frac) = true := by
    cases frac with
    | nil => rfl
    | cons f fs =>
      simp only [renderFrac, if_neg (by simp : ¬ (f :: fs : List Char) = [])]
      rfl
  have htw := takeWhile_digits_append ((a :: as) ++ grps.flatten) (renderFrac frac)
    hdall hfracnd
  have hsgn : ∀ b : Bool, (if b then ['-'] else []).filter (fun c => c ≠ ',') =
      (if b then ['-'] else ([] : List Char)) := by
    intro b
    cases b <;> rfl
  have hfilter : (renderToken sign (a :: as) grps frac).filter (fun c => c ≠ ',') =
      (((if sign then ['-'] else []) ++ (a :: as)) ++ grps.flatten) ++ renderFrac frac := by
    simp only [renderToken, List.filter_append]
    rw [filter_comma_digits (a :: as) hint, filter_comma_groups grps hgrps,
      filter_comma_frac frac hfrac, hsgn sign]
  cases sign with
  | true =>
    cases frac with
    | nil =>
      have hrf0 : renderFrac ([] : List Char) = [] := rfl
      rw [hrf0] at htw hfilter
      simp only [List.append_nil, List.cons_append, List.append_assoc] at htw hfilter
      simp only [ratOfToken, hfilter]
      simp [htw.1, htw.2, denotedValue, hrf0, List.cons_append, List.append_assoc]
    | cons f fs =>
      have hrf : renderFrac (f :: fs) = '.' :: f :: fs := by simp [renderFrac]
      rw [hrf] at htw hfilter
      simp only [List.cons_append, List.append_assoc] at htw hfilter
      simp only [ratOfToken, hfilter]
      simp [htw.1, htw.2, denotedValue, hrf, List.cons_append, List.append_assoc]
  | false =>
    cases frac with
    | nil =>
      have hrf0 : renderFrac ([] : List Char) = [] := rfl
      rw [hrf0] at htw hfilter
      simp only [List.append_nil, List.cons_append, List.append_assoc] at htw hfilter
      simp only [ratOfToken, hfilter]
      simp [htw.1, htw.2, denotedValue, hrf0, hand, List.cons_append, List.append_assoc]
    | cons f fs =>
      have hrf : renderFrac (f :: fs) = '.' :: f :: fs := by simp [renderFrac]
      rw [hrf] at htw hfilter
      simp only [List.cons_append, List.append_assoc] at htw hfilter
      simp only [ratOfToken, hfilter]
      simp [htw.1, htw.2, denotedValue, hrf, hand, List.cons_append, List.append_assoc]

/-- C1 counterexample: the claim fails as stated.  The raw string
"1774" begins with the signed decimal number 1774 (no comma
separators), yet `parse_simplified_value` returns numeric component
177, because the pattern `-?\d{1,3}(?:,\d{3})*(?:\.\d+)?` can take at
most three digits when no comma grouping is used. -/
theorem C1_counterexample :
    parse_simplified_value (.str "1774") = (some (.num 177), some (.str "1774")) ∧
      (177 : ℚ) ≠ 1774 := by
  constructor
  · have e0 : parse_simplified_value (.str "1774") =
        (some (.num (ratOfToken ['1', '7', '7'])), some (.str "1774")) := rfl
    have e1 : ratOfToken ['1', '7', '7'] =
        (digitsToNat ['1', '7', '7'] : ℚ) +
          (digitsToNat [] : ℚ) / (10 : ℚ) ^ (List.length ([] : List Char)) := rfl
    have d1 : digitsToNat ['1', '7', '7'] = 177 := by decide
    have d2 : digitsToNat [] = 0 := rfl
    have e2 : (digitsToNat ['1', '7', '7'] : ℚ) +
        (digitsToNat [] : ℚ) / (10 : ℚ) ^ (List.length ([] : List Char)) = 177 := by
      rw [d1, d2]
      norm_num
    rw [e0, e1, e2]
  · norm_num

/-- C1 (amended): for every raw value string whose currency-stripped
form begins with a well-grouped signed decimal number — integer part of
one to three digits followed by full comma groups of three digits and
an optional fractional part, not extended by the following characters —
`parse_simplified_value` returns the number's denoted decimal value as
the numeric component and the original string unchanged as the display
component. -/
theorem C1_leading_decimal_amended (s : String) (sign : Bool) (intDs : List Char)
    (grps : List (List Char)) (frac rest : List Char)
    (hsplit : stripCurrency s.data = renderToken sign intDs grps frac ++ rest)
    (hint : isDigitList intDs = true) (hne : intDs ≠ []) (hlen : intDs.length ≤ 3)
    (hgrps : ∀ g ∈ grps, g.length = 3 ∧ isDigitList g = true)
    (hfrac : isDigitList frac = true)
    (hbound : boundaryOK frac rest = true) :
    parse_simplified_value (.str s) =
      (some (.num (denotedValue sign intDs grps frac)), some (.str s)) := by
  obtain ⟨c, tl, hcons, hc⟩ : ∃ c tl,
      renderToken sign intDs grps frac ++ rest = c :: tl ∧ (c = '-' ∨ isDig c = true) := by
    rcases intDs with _ | ⟨a, as⟩
    · exact absurd rfl hne
    have ha : isDig a = true := by
      have := hint
      simp [isDigitList] at this
      exact this.1
    cases sign with
    | true =>
      exact ⟨'-', (a :: as) ++ renderGroups grps ++ renderFrac frac ++ rest,
        by simp [renderToken, List.append_assoc], Or.inl rfl⟩
    | false =>
      exact ⟨a, as ++ (renderGroups grps ++ renderFrac frac ++ rest),
        by simp [renderToken, List.append_assoc], Or.inr ha⟩
  have hsent := sentinel_head_excluded s c tl (hsplit.trans hcons) hc
  have hsne : s ≠ "" := by
    intro h
    subst h
    have h0 : stripCurrency ("" : String).data = [] := by decide
    rw [h0, hcons] at hsplit
    cases hsplit
  have htr : ¬ (truthy (.str s) = false ∨ JsonVal.str s = .str "Not found") := by
    rintro (h | h)
    · have : s = "" := by simpa [truthy] using h
      exact hsne this
    · injection h with h2
      exact hsent.2 h2
  unfold parse_simplified_value
  rw [if_neg htr]
  show (extract_numeric_value (JsonVal.str s), some (JsonVal.str s)) = _
  have e : extract_numeric_value (JsonVal.str s) =
      (if String.mk (pyLower s.data) ∈ sentinelList then none
        else
          match searchNum (stripCurrency s.data) with
          | some t => some (JsonVal.num (ratOfToken t))
          | none => none) := rfl
  rw [e, if_neg hsent.1]
  have hmatch : matchNumAt (renderToken sign intDs grps frac ++ rest) =
      some (renderToken sign intDs grps frac) :=
    matchNumAt_exact sign intDs grps frac rest hint hne hlen hgrps hfrac hbound
  have hsearch : searchNum (stripCurrency s.data) =
      some (renderToken sign intDs grps frac) := by
    rw [hsplit, hcons]
    exact searchNum_of_matchAt c tl _ (hcons ▸ hmatch)
  rw [hsearch]
  show (some (JsonVal.num (ratOfToken (renderToken sign intDs grps frac))),
    some (JsonVal.str s)) = _
  rw [ratOfToken_denotes sign intDs grps frac hint hne hgrps hfrac]

/-- Witness for the amended C1 at the spec's own scenario input
"$1,774 million": numeric 1774, display preserved. -/
theorem C1_leading_decimal_amended_witness :
    stripCurrency "$1,774 million".data =
      renderToken false ['1'] [['7', '7', '4']] [] ++ " million".data ∧
    parse_simplified_value (.str "$1,774 million") =
      (some (.num (denotedValue false ['1'] [['7', '7', '4']] [])),
        some (.str "$1,774 million")) :=
  ⟨by decide,
    C1_leading_decimal_amended "$1,774 million" false ['1'] [['7', '7', '4']] []
      (" million".data) (by decide) (by decide) (by decide) (by decide)
      (by decide) (by decide) (by decide)⟩

/-- Stable descending insertion never empties a list. -/
theorem insertDesc_ne_nil (c : CandidateDoc) (l : List CandidateDoc) :
    insertDesc c l ≠ [] := by
  cases l with
  | nil => simp [insertDesc]
  | cons d ds =>
    unfold insertDesc
    split <;> simp

/-- Sorting a non-empty candidate list yields a non-empty list. -/
theorem sort_ne_nil (l : List CandidateDoc) (h : l ≠ []) :
    sortByPriorityDesc l ≠ [] := by
  cases l with
  | nil => exact absurd rfl h
  | cons c cs => exact insertDesc_ne_nil c _

/-- Head of a stable descending insertion. -/
theorem insertDesc_head (c d : CandidateDoc) (ds : List CandidateDoc) :
    (insertDesc c (d :: ds)).head? = some (if d.priority ≤ c.priority then c else d) := by
  unfold insertDesc
  split <;> simp_all

/-- The head of the stable descending sort is the first candidate of
maximal priority. -/
theorem sort_head_eq_find (l : List CandidateDoc) :
    (sortByPriorityDesc l).head? = l.find? (fun c => c.priority = maxPriority l) := by
  induction l with
  | nil => rfl
  | cons x xs ih =>
    have hsx : sortByPriorityDesc (x :: xs) = insertDesc x (sortByPriorityDesc xs) := rfl
    cases hxs : sortByPriorityDesc xs with
    | nil =>
      have hxsnil : xs = [] := by
        by_contra hne
        exact sort_ne_nil xs hne hxs
      subst hxsnil
      simp [sortByPriorityDesc, insertDesc, maxPriority, List.find?]
    | cons h t =>
      rw [hsx, hxs, insertDesc_head]
      have ihh : xs.find? (fun c => c.priority = maxPriority xs) = some h := by
        rw [← ih, hxs]
        rfl
      have hp : h.priority = maxPriority xs := by
        have := List.find?_some ihh
        simpa using this
      have hmx : maxPriority (x :: xs) = max x.priority (maxPriority xs) := rfl
      by_cases hcmp : h.priority ≤ x.priority
      · rw [if_pos hcmp]
        have hx : x.priority = maxPriority (x :: xs) := by
          rw [hmx]
          omega
        rw [List.find?_cons_of_pos _ (by simp [hx])]
      · rw [if_neg hcmp]
        have hmax : maxPriority (x :: xs) = maxPriority xs := by
          rw [hmx]
          omega
        rw [List.find?_cons_of_neg _ (by simp [hmax]; omega), hmax]
        exact ihh.symm

/-- C6 counterexample: the claim's scoring rule (any surviving generic
".htm" link scores 1) disagrees with the code, which gives such a link
priority 0 when its path also contains "xml".  On the links
["doc-xml-a.htm", "doc-b.htm"] (ticker "qqq", kind "10-K"), the claimed
rule ties both links at 1 and picks the first, while the code picks the
second. -/
theorem C6_counterexample :
    get_filing_document_url "qqq" "10-K" ["doc-xml-a.htm", "doc-b.htm"] = some "doc-b.htm" ∧
    get_filing_document_url_spec "qqq" "10-K" ["doc-xml-a.htm", "doc-b.htm"] =
      some "doc-xml-a.htm" ∧
    ("doc-b.htm" : String) ≠ "doc-xml-a.htm" :=
  ⟨by decide, by decide, by decide⟩

/-- C6 (amended): `get_filing_document_url` scores each surviving
candidate by `docPriority` — kind-token match 3, ticker match 2, a link
containing "htm" but not "xml" 1, otherwise 0 — and returns the
first-seen candidate of maximal priority, `none` when no candidate
survives the filters; the spec's scenario (links ["ex10.htm",
"company-10q-2025.htm", "filing_htm.xml"], kind "10-Q") resolves to
"company-10q-2025.htm". -/
theorem C6_document_selection_amended :
    (∀ (ticker filing_type : String) (hrefs : List String),
      get_filing_document_url ticker filing_type hrefs =
        ((buildCandidates ticker filing_type hrefs).find?
          (fun c => c.priority = maxPriority (buildCandidates ticker filing_type hrefs))).map
          (fun c => c.href)) ∧
    get_filing_document_url "xyz" "10-Q" ["ex10.htm", "company-10q-2025.htm", "filing_htm.xml"] =
      some "company-10q-2025.htm" ∧
    get_filing_document_url "xyz" "10-Q" [] = none := by
  refine ⟨?_, by decide, rfl⟩
  intro t f hrefs
  have key : get_filing_document_url t f hrefs =
      (if buildCandidates t f hrefs = [] then none
        else ((sortByPriorityDesc (buildCandidates t f hrefs)).head?).map
          (fun c => c.href)) := rfl
  by_cases hc : buildCandidates t f hrefs = []
  · rw [key, if_pos hc, hc]
    rfl
  · rw [key, if_neg hc, sort_head_eq_find]

/-- `clean_val` never produces the literal sentinel. -/
theorem clean_val_some (x : JsonVal) :
    clean_val (some x) =
      (if truthy x = false ∨ x = .str "Not found" then none else some x) := rfl

theorem clean_val_ne_sentinel (v : Option JsonVal) :
    clean_val v ≠ some (.str "Not found") := by
  cases v with
  | none => simp [clean_val]
  | some x =>
    rw [clean_val_some]
    by_cases h : truthy x = false ∨ x = .str "Not found"
    · rw [if_pos h]
      simp
    · rw [if_neg h]
      intro hc
      injection hc with hc
      exact h (Or.inr hc)

/-- Upserting preserves a row predicate that the new row satisfies. -/
theorem all_upsertRow {ρ : Type} (p conflict : ρ → Bool) (row : ρ) (t : List ρ)
    (ht : t.all p = true) (hrow : p row = true) :
    (upsertRow conflict row t).all p = true := by
  unfold upsertRow
  split
  · simp only [List.all_eq_true] at ht ⊢
    intro r hr
    obtain ⟨r0, hr0, hrw⟩ := List.mem_map.mp hr
    subst hrw
    by_cases hc : conflict r0 = true
    · simpa [hc] using hrow
    · simpa [hc] using ht r0 hr0
  · simp [List.all_append, ht, hrow]

/-- Folding basin upserts preserves a row predicate that every new row
satisfies. -/
theorem all_foldl_upsert (p : BasinRow → Bool) (rows : List BasinRow) (t : List BasinRow)
    (ht : t.all p = true) (hrows : rows.all p = true) :
    (rows.foldl (fun acc row => upsertRow (basinConflict row) row acc) t).all p = true := by
  induction rows generalizing t with
  | nil => exact ht
  | cons r rs ih =>
    simp only [List.all_cons, Bool.and_eq_true] at hrows
    exact ih _ (all_upsertRow p _ r t ht hrows.1) hrows.2

/-- The production row of any record carries no sentinel in its metric
columns. -/
theorem mkProductionRow_clean (r : ParsedRecord) :
    productionRowClean (mkProductionRow r) = true := by
  simp [productionRowClean, mkProductionRow, clean_val_ne_sentinel]

/-- The activity row of any record carries no sentinel. -/
theorem mkActivityRow_clean (r : ParsedRecord) :
    activityRowClean (mkActivityRow r) = true := by
  simp [activityRowClean, mkActivityRow, clean_val_ne_sentinel]

/-- The revenue row of any record carries no sentinel. -/
theorem mkRevenueRow_clean (r : ParsedRecord) :
    revenueRowClean (mkRevenueRow r) = true := by
  simp [revenueRowClean, mkRevenueRow, clean_val_ne_sentinel]

/-- The pricing row of any record carries no sentinel. -/
theorem mkPricingRow_clean (r : ParsedRecord) :
    pricingRowClean (mkPricingRow r) = true := by
  simp [pricingRowClean, mkPricingRow, clean_val_ne_sentinel]

/-- The cost row of any record carries no sentinel. -/
theorem mkCostRow_clean (r : ParsedRecord) :
    costRowClean (mkCostRow r) = true := by
  simp [costRowClean, mkCostRow, clean_val_ne_sentinel]

/-- Every basin row built from a basin object carries no sentinel. -/
theorem basinRowsAux_clean (r : ParsedRecord) :
    ∀ o : JsonObj, (basinRowsAux r o).all basinRowClean = true
  | .nil => rfl
  | .cons k v rest => by
    cases v with
    | obj bd =>
      simp only [basinRowsAux, List.all_cons, Bool.and_eq_true]
      exact ⟨by simp [basinRowClean, mkBasinRow, clean_val_ne_sentinel],
        basinRowsAux_clean r rest⟩
    | str s => simpa [basinRowsAux] using basinRowsAux_clean r rest
    | num q => simpa [basinRowsAux] using basinRowsAux_clean r rest
    | bool b => simpa [basinRowsAux] using basinRowsAux_clean r rest
    | null => simpa [basinRowsAux] using basinRowsAux_clean r rest
    | arr a => simpa [basinRowsAux] using basinRowsAux_clean r rest

/-- All basin rows of any record carry no sentinel. -/
theorem basinRows_clean (r : ParsedRecord) :
    (basinRows r).all basinRowClean = true := by
  unfold basinRows
  cases r.basins <;> first
    | rfl
    | exact basinRowsAux_clean r _

/-- C10: the SQL value bound for a metric display string is NULL
exactly when the string is falsy (empty, or the value is absent) or is
the exact string "Not found"; `clean_val` never emits the sentinel
itself, and consequently inserting any record into a store whose metric
columns are sentinel-free keeps them sentinel-free. -/
theorem C10_clean_val_sentinel :
    (∀ s : String, clean_val (some (.str s)) = none ↔ (s = "" ∨ s = "Not found")) ∧
    clean_val none = none ∧
    (∀ v : Option JsonVal, clean_val v ≠ some (.str "Not found")) ∧
    (∀ (db : Database) (r : ParsedRecord),
      dbClean db = true → dbClean (insertRecord db r) = true) := by
  refine ⟨?_, rfl, clean_val_ne_sentinel, ?_⟩
  · intro s
    rw [clean_val_some]
    constructor
    · intro h
      by_cases hc : truthy (.str s) = false ∨ JsonVal.str s = .str "Not found"
      · rcases hc with hc | hc
        · left
          simpa [truthy] using hc
        · right
          injection hc
      · rw [if_neg hc] at h
        cases h
    · intro h
      rcases h with rfl | rfl
      · rw [if_pos (Or.inl (by simp [truthy]))]
      · rw [if_pos (Or.inr rfl)]
  · intro db r hdb
    unfold insertRecord
    split
    · exact hdb
    · simp only [dbClean, insertRecordTables, Bool.and_eq_true] at hdb ⊢
      obtain ⟨⟨⟨⟨⟨h1, h2⟩, h3⟩, h4⟩, h5⟩, h6⟩ := hdb
      refine ⟨⟨⟨⟨⟨?_, ?_⟩, ?_⟩, ?_⟩, ?_⟩, ?_⟩
      · exact all_upsertRow _ _ _ _ h1 (mkProductionRow_clean r)
      · exact all_upsertRow _ _ _ _ h2 (mkActivityRow_clean r)
      · exact all_upsertRow _ _ _ _ h3 (mkRevenueRow_clean r)
      · exact all_upsertRow _ _ _ _ h4 (mkPricingRow_clean r)
      · exact all_upsertRow _ _ _ _ h5 (mkCostRow_clean r)
      · exact all_foldl_upsert _ _ _ h6 (basinRows_clean r)

/-- Witness for C10: inserting a concrete record into the empty store
keeps it sentinel-free. -/
theorem C10_clean_val_sentinel_witness :
    dbClean ⟨[], [], [], [], [], [], []⟩ = true ∧
    dbClean (insertRecord ⟨[], [], [], [], [], [], []⟩
      ⟨⟨.str "XOM", .str "123", .str "Exxon", some (.str "10-K"),
        some (.str "2025-01-01"), .str "", .str "", .str ""⟩,
        none, none, none, none, none, .obj .nil, .obj .nil⟩) = true :=
  ⟨rfl, C10_clean_val_sentinel.2.2.2 ⟨[], [], [], [], [], [], []⟩ _ rfl⟩

/-- SQL equality is reflexive on non-NULL values. -/
theorem sqlEq_self (a : Option JsonVal) (h : a ≠ none) : sqlEq a a = true := by
  cases a with
  | none => exact absurd rfl h
  | some x => simp [sqlEq]

/-- True SQL equality forces actual equality. -/
theorem sqlEq_eq_of_true {a b : Option JsonVal} (h : sqlEq a b = true) : a = b := by
  cases a with
  | none => simp [sqlEq] at h
  | some x =>
    cases b with
    | none => simp [sqlEq] at h
    | some y =>
      simp only [sqlEq, decide_eq_true_eq] at h
      rw [h]

/-- A full non-NULL key conflicts with itself. -/
theorem keyConflict_self (t d f : Option JsonVal) (ht : t ≠ none) (hd : d ≠ none)
    (hf : f ≠ none) : keyConflict t d f t d f = true := by
  unfold keyConflict
  simp [sqlEq_self t ht, sqlEq_self d hd, sqlEq_self f hf]

/-- An upsert with no conflicting row appends. -/
theorem upsert_append {ρ : Type} (conflict : ρ → Bool) (row : ρ) (t : List ρ)
    (h : t.any conflict = false) : upsertRow conflict row t = t ++ [row] := by
  unfold upsertRow
  rw [if_neg (by simp [h])]

/-- Re-upserting a row that is already stored (and uniquely matches its
own conflict test) changes nothing. -/
theorem upsert_noop_of_selfmem {ρ : Type} (conflict : ρ → Bool) (row : ρ) (t : List ρ)
    (hmem : row ∈ t) (hself : conflict row = true)
    (huniq : ∀ x ∈ t, conflict x = true → x = row) :
    upsertRow conflict row t = t := by
  unfold upsertRow
  rw [if_pos (List.any_eq_true.mpr ⟨row, hmem, hself⟩)]
  calc t.map (fun r => if conflict r then row else r)
      = t.map id := by
        apply List.map_congr_left
        intro x hx
        by_cases hcx : conflict x = true
        · rw [if_pos hcx, huniq x hx hcx]
          rfl
        · simp [hcx]
    _ = t := List.map_id t

/-- Filtering an appended fresh row out of a list with no other match
yields exactly that row. -/
theorem filter_append_single {ρ : Type} (p : ρ → Bool) (t : List ρ) (row : ρ)
    (ht : t.any p = false) (hrow : p row = true) :
    (t ++ [row]).filter p = [row] := by
  rw [List.filter_append]
  have h1 : t.filter p = [] := by
    rw [List.filter_eq_nil_iff]
    intro x hx
    have := List.any_eq_false.mp ht x hx
    simpa using this
  rw [h1]
  simp [hrow]

/-- Filtering a duplicate-free list with a predicate that uniquely
identifies one member yields exactly that member. -/
theorem filter_unique {ρ : Type} (p : ρ → Bool) (l : List ρ) (a : ρ)
    (hnodup : l.Nodup) (ha : a ∈ l) (hpa : p a = true)
    (huniq : ∀ x ∈ l, p x = true → x = a) :
    l.filter p = [a] := by
  induction l with
  | nil => cases ha
  | cons b bs ih =>
    rcases List.mem_cons.mp ha with rfl | hmem
    · rw [List.filter_cons_of_pos hpa]
      have hb : bs.filter p = [] := by
        rw [List.filter_eq_nil_iff]
        intro x hx hpx
        have hxa := huniq x (by simp [hx]) (by simpa using hpx)
        subst hxa
        exact (List.nodup_cons.mp hnodup).1 hx
      rw [hb]
    · have hb : p b = false := by
        by_contra hpb
        rw [Bool.not_eq_false] at hpb
        have hba := huniq b (by simp) hpb
        subst hba
        exact (List.nodup_cons.mp hnodup).1 hmem
      rw [List.filter_cons_of_neg (by simp [hb])]
      exact ih (List.nodup_cons.mp hnodup).2 hmem
        (fun x hx hpx => huniq x (by simp [hx]) hpx)

/-- Key fields of every basin row of a record. -/
theorem basinRowsAux_fields (r : ParsedRecord) :
    ∀ (o : JsonObj) (brow : BasinRow), brow ∈ basinRowsAux r o →
      brow.ticker = bindVal r.company_info.ticker ∧
      brow.sec_filing_date = bindOpt r.company_info.filing_date ∧
      brow.file_type = bindOpt r.company_info.filing_type ∧
      ∃ n : String, brow.basin_name = some (.str n)
  | .nil, brow, h => by cases h
  | .cons k v rest, brow, h => by
    cases v with
    | obj bd =>
      simp only [basinRowsAux] at h
      rcases List.mem_cons.mp h with rfl | h2
      · exact ⟨rfl, rfl, rfl, ⟨k, rfl⟩⟩
      · exact basinRowsAux_fields r rest brow h2
    | str s => exact basinRowsAux_fields r rest brow (by simpa [basinRowsAux] using h)
    | num q => exact basinRowsAux_fields r rest brow (by simpa [basinRowsAux] using h)
    | bool b => exact basinRowsAux_fields r rest brow (by simpa [basinRowsAux] using h)
    | null => exact basinRowsAux_fields r rest brow (by simpa [basinRowsAux] using h)
    | arr a => exact basinRowsAux_fields r rest brow (by simpa [basinRowsAux] using h)

/-- Key fields of every basin row of a record. -/
theorem basinRows_fields (r : ParsedRecord) (brow : BasinRow) (h : brow ∈ basinRows r) :
    brow.ticker = bindVal r.company_info.ticker ∧
    brow.sec_filing_date = bindOpt r.company_info.filing_date ∧
    brow.file_type = bindOpt r.company_info.filing_type ∧
    ∃ n : String, brow.basin_name = some (.str n) := by
  unfold basinRows at h
  cases hb : r.basins <;> rw [hb] at h <;> first
    | cases h
    | exact basinRowsAux_fields r _ brow h

/-- A basin row conflicts with itself when the record's key fields are
non-NULL. -/
theorem basinConflict_self (r : ParsedRecord) (brow : BasinRow) (hmem : brow ∈ basinRows r)
    (ht : bindVal r.company_info.ticker ≠ none)
    (hd : bindOpt r.company_info.filing_date ≠ none)
    (hf : bindOpt r.company_info.filing_type ≠ none) :
    basinConflict brow brow = true := by
  obtain ⟨h1, h2, h3, n, h4⟩ := basinRows_fields r brow hmem
  unfold basinConflict
  rw [keyConflict_self _ _ _ (by rw [h1]; exact ht) (by rw [h2]; exact hd)
    (by rw [h3]; exact hf)]
  have h5 : sqlEq brow.basin_name brow.basin_name = true := by
    rw [h4]
    simp [sqlEq]
  simp [h5]

/-- Two basin rows of one record with equal names are equal (the basin
dict has unique keys). -/
theorem basinRows_name_inj (r : ParsedRecord)
    (hnames : ((basinRows r).map (fun b => b.basin_name)).Nodup)
    (x y : BasinRow) (hx : x ∈ basinRows r) (hy : y ∈ basinRows r)
    (heq : x.basin_name = y.basin_name) : x = y :=
  List.inj_on_of_nodup_map hnames hx hy heq

/-- Folding fresh basin upserts appends the rows in order. -/
theorem basin_fold_append (_r : ParsedRecord) :
    ∀ (rows t : List BasinRow),
      (∀ row ∈ rows, t.any (basinConflict row) = false) →
      ((rows.map (fun b => b.basin_name)).Nodup) →
      rows.foldl (fun acc row => upsertRow (basinConflict row) row acc) t = t ++ rows := by
  intro rows
  induction rows with
  | nil => intro t _ _; simp
  | cons rw0 rs ih =>
    intro t h hnames
    rw [List.map_cons] at hnames
    have hr := List.nodup_cons.mp hnames
    simp only [List.foldl_cons]
    rw [upsert_append _ _ _ (h rw0 (by simp))]
    rw [ih (t ++ [rw0]) ?_ hr.2]
    · simp
    · intro row hrow
      rw [List.any_append]
      rw [h row (by simp [hrow])]
      simp only [List.any_cons, List.any_nil, Bool.or_false, Bool.false_or]
      have hne : row.basin_name ≠ rw0.basin_name := by
        intro heq
        exact hr.1 (by rw [← heq]; exact List.mem_map_of_mem _ hrow)
      have hbf : basinConflict row rw0 = false := by
        by_contra hb
        rw [Bool.not_eq_false] at hb
        unfold basinConflict at hb
        simp only [Bool.and_eq_true] at hb
        exact hne (sqlEq_eq_of_true hb.2).symm
      simp [hbf]

/-- Folding basin upserts that each leave the table unchanged leaves it
unchanged. -/
theorem foldl_upsert_noop (rows t : List BasinRow)
    (h : ∀ row ∈ rows, upsertRow (basinConflict row) row t = t) :
    rows.foldl (fun acc row => upsertRow (basinConflict row) row acc) t = t := by
  induction rows with
  | nil => rfl
  | cons r rs ih =>
    simp only [List.foldl_cons, h r (by simp)]
    exact ih fun row hr => h row (by simp [hr])

/-- Re-upserting the row just appended to a previously conflict-free
table changes nothing. -/
theorem upsert_append_noop {ρ : Type} (conflict : ρ → Bool) (row : ρ) (t : List ρ)
    (hrow : conflict row = true) (ht : t.any conflict = false) :
    upsertRow conflict row (t ++ [row]) = t ++ [row] := by
  apply upsert_noop_of_selfmem
  · simp
  · exact hrow
  · intro x hx hcx
    rcases List.mem_append.mp hx with hx2 | hx2
    · have := List.any_eq_false.mp ht x hx2
      simp [hcx] at this
    · simpa using hx2

/-- Within one record's basin rows, a row's conflict test identifies
only that row. -/
theorem basin_uniq (r : ParsedRecord)
    (h8 : ((basinRows r).map (fun b => b.basin_name)).Nodup)
    (brow : BasinRow) (hmem : brow ∈ basinRows r) :
    ∀ x ∈ basinRows r, basinConflict brow x = true → x = brow := by
  intro x hx hc
  unfold basinConflict at hc
  simp only [Bool.and_eq_true] at hc
  exact basinRows_name_inj r h8 x brow hx hmem (sqlEq_eq_of_true hc.2)

/-- Field-wise extensionality of the store. -/
theorem Database.ext (a b : Database)
    (e1 : a.company_summary = b.company_summary)
    (e2 : a.production_data = b.production_data)
    (e3 : a.activity_wells = b.activity_wells)
    (e4 : a.revenue_data = b.revenue_data)
    (e5 : a.realized_prices = b.realized_prices)
    (e6 : a.cost_data = b.cost_data)
    (e7 : a.basin_data = b.basin_data) : a = b := by
  cases a
  cases b
  simp_all

/-- C5: inserting the same canonical record (with a fully non-NULL
natural key) twice into a store holding no row for that key results in
exactly one row per table for the key, carrying the record's values;
the second insert leaves the store unchanged. -/
theorem C5_upsert_idempotent (db : Database) (r : ParsedRecord)
    (ht : bindVal r.company_info.ticker ≠ none)
    (hd : bindOpt r.company_info.filing_date ≠ none)
    (hf : bindOpt r.company_info.filing_type ≠ none)
    (h0 : check_duplicate_filing (bindVal r.company_info.company_name)
      (bindOpt r.company_info.filing_type) (bindOpt r.company_info.filing_date)
      db.company_summary = false)
    (h1 : db.company_summary.any (fun row => keyConflict row.ticker row.filing_date
      row.filing_type (mkSummaryRow r).ticker (mkSummaryRow r).filing_date
      (mkSummaryRow r).filing_type) = false)
    (h2 : db.production_data.any (fun row => keyConflict row.ticker row.filing_date
      row.filing_type (mkProductionRow r).ticker (mkProductionRow r).filing_date
      (mkProductionRow r).filing_type) = false)
    (h3 : db.activity_wells.any (fun row => keyConflict row.ticker row.filing_date
      row.filing_type (mkActivityRow r).ticker (mkActivityRow r).filing_date
      (mkActivityRow r).filing_type) = false)
    (h4 : db.revenue_data.any (fun row => keyConflict row.ticker row.filing_date
      row.filing_type (mkRevenueRow r).ticker (mkRevenueRow r).filing_date
      (mkRevenueRow r).filing_type) = false)
    (h5 : db.realized_prices.any (fun row => keyConflict row.ticker row.filing_date
      row.filing_type (mkPricingRow r).ticker (mkPricingRow r).filing_date
      (mkPricingRow r).filing_type) = false)
    (h6 : db.cost_data.any (fun row => keyConflict row.ticker row.filing_date
      row.filing_type (mkCostRow r).ticker (mkCostRow r).filing_date
      (mkCostRow r).filing_type) = false)
    (h7 : ∀ brow ∈ basinRows r, db.basin_data.any (basinConflict brow) = false)
    (h8 : ((basinRows r).map (fun b => b.basin_name)).Nodup) :
    insert_data_to_database (insert_data_to_database db [r]) [r] =
      insert_data_to_database db [r] ∧
    (insert_data_to_database db [r]).company_summary.filter
      (fun row => keyConflict row.ticker row.filing_date row.filing_type
        (mkSummaryRow r).ticker (mkSummaryRow r).filing_date (mkSummaryRow r).filing_type) =
      [mkSummaryRow r] ∧
    (insert_data_to_database db [r]).production_data.filter
      (fun row => keyConflict row.ticker row.filing_date row.filing_type
        (mkProductionRow r).ticker (mkProductionRow r).filing_date (mkProductionRow r).filing_type) =
      [mkProductionRow r] ∧
    (insert_data_to_database db [r]).activity_wells.filter
      (fun row => keyConflict row.ticker row.filing_date row.filing_type
        (mkActivityRow r).ticker (mkActivityRow r).filing_date (mkActivityRow r).filing_type) =
      [mkActivityRow r] ∧
    (insert_data_to_database db [r]).revenue_data.filter
      (fun row => keyConflict row.ticker row.filing_date row.filing_type
        (mkRevenueRow r).ticker (mkRevenueRow r).filing_date (mkRevenueRow r).filing_type) =
      [mkRevenueRow r] ∧
    (insert_data_to_database db [r]).realized_prices.filter
      (fun row => keyConflict row.ticker row.filing_date row.filing_type
        (mkPricingRow r).ticker (mkPricingRow r).filing_date (mkPricingRow r).filing_type) =
      [mkPricingRow r] ∧
    (insert_data_to_database db [r]).cost_data.filter
      (fun row => keyConflict row.ticker row.filing_date row.filing_type
        (mkCostRow r).ticker (mkCostRow r).filing_date (mkCostRow r).filing_type) =
      [mkCostRow r] ∧
    (∀ brow ∈ basinRows r,
      (insert_data_to_database db [r]).basin_data.filter (basinConflict brow) = [brow]) := by
  have hdb1 : insert_data_to_database db [r] = insertRecordTables db r := by
    show insertRecord db r = insertRecordTables db r
    unfold insertRecord
    rw [if_neg (by simp [h0])]
  have hcs : (insertRecordTables db r).company_summary =
      db.company_summary ++ [mkSummaryRow r] := upsert_append _ _ _ h1
  have hpd : (insertRecordTables db r).production_data =
      db.production_data ++ [mkProductionRow r] := upsert_append _ _ _ h2
  have haw : (insertRecordTables db r).activity_wells =
      db.activity_wells ++ [mkActivityRow r] := upsert_append _ _ _ h3
  have hrd : (insertRecordTables db r).revenue_data =
      db.revenue_data ++ [mkRevenueRow r] := upsert_append _ _ _ h4
  have hrp : (insertRecordTables db r).realized_prices =
      db.realized_prices ++ [mkPricingRow r] := upsert_append _ _ _ h5
  have hcd : (insertRecordTables db r).cost_data =
      db.cost_data ++ [mkCostRow r] := upsert_append _ _ _ h6
  have hbd : (insertRecordTables db r).basin_data =
      db.basin_data ++ basinRows r := basin_fold_append r (basinRows r) db.basin_data h7 h8
  have hselfS : keyConflict (mkSummaryRow r).ticker (mkSummaryRow r).filing_date
      (mkSummaryRow r).filing_type (mkSummaryRow r).ticker (mkSummaryRow r).filing_date
      (mkSummaryRow r).filing_type = true := keyConflict_self _ _ _ ht hd hf
  have hselfP : keyConflict (mkProductionRow r).ticker (mkProductionRow r).filing_date
      (mkProductionRow r).filing_type (mkProductionRow r).ticker (mkProductionRow r).filing_date
      (mkProductionRow r).filing_type = true := keyConflict_self _ _ _ ht hd hf
  have hselfA : keyConflict (mkActivityRow r).ticker (mkActivityRow r).filing_date
      (mkActivityRow r).filing_type (mkActivityRow r).ticker (mkActivityRow r).filing_date
      (mkActivityRow r).filing_type = true := keyConflict_self _ _ _ ht hd hf
  have hselfR : keyConflict (mkRevenueRow r).ticker (mkRevenueRow r).filing_date
      (mkRevenueRow r).filing_type (mkRevenueRow r).ticker (mkRevenueRow r).filing_date
      (mkRevenueRow r).filing_type = true := keyConflict_self _ _ _ ht hd hf
  have hselfPr : keyConflict (mkPricingRow r).ticker (mkPricingRow r).filing_date
      (mkPricingRow r).filing_type (mkPricingRow r).ticker (mkPricingRow r).filing_date
      (mkPricingRow r).filing_type = true := keyConflict_self _ _ _ ht hd hf
  have hselfC : keyConflict (mkCostRow r).ticker (mkCostRow r).filing_date
      (mkCostRow r).filing_type (mkCostRow r).ticker (mkCostRow r).filing_date
      (mkCostRow r).filing_type = true := keyConflict_self _ _ _ ht hd hf
  refine ⟨?_, ?_, ?_, ?_, ?_, ?_, ?_, ?_⟩
  · rw [hdb1]
    show insertRecord (insertRecordTables db r) r = insertRecordTables db r
    unfold insertRecord
    by_cases hc2 : check_duplicate_filing (bindVal r.company_info.company_name)
        (bindOpt r.company_info.filing_type) (bindOpt r.company_info.filing_date)
        (insertRecordTables db r).company_summary = true
    · rw [if_pos hc2]
    · rw [if_neg hc2]
      apply Database.ext
      · show upsertRow _ (mkSummaryRow r) (insertRecordTables db r).company_summary = _
        rw [hcs]
        exact upsert_append_noop _ _ _ hselfS h1
      · show upsertRow _ (mkProductionRow r) (insertRecordTables db r).production_data = _
        rw [hpd]
        exact upsert_append_noop _ _ _ hselfP h2
      · show upsertRow _ (mkActivityRow r) (insertRecordTables db r).activity_wells = _
        rw [haw]
        exact upsert_append_noop _ _ _ hselfA h3
      · show upsertRow _ (mkRevenueRow r) (insertRecordTables db r).revenue_data = _
        rw [hrd]
        exact upsert_append_noop _ _ _ hselfR h4
      · show upsertRow _ (mkPricingRow r) (insertRecordTables db r).realized_prices = _
        rw [hrp]
        exact upsert_append_noop _ _ _ hselfPr h5
      · show upsertRow _ (mkCostRow r) (insertRecordTables db r).cost_data = _
        rw [hcd]
        exact upsert_append_noop _ _ _ hselfC h6
      · show (basinRows r).foldl _ (insertRecordTables db r).basin_data = _
        rw [hbd]
        apply foldl_upsert_noop
        intro row hrow
        apply upsert_noop_of_selfmem
        · exact List.mem_append.mpr (Or.inr hrow)
        · exact basinConflict_self r row hrow ht hd hf
        · intro x hx hcx
          rcases List.mem_append.mp hx with hx2 | hx2
          · have := List.any_eq_false.mp (h7 row hrow) x hx2
            simp [hcx] at this
          · exact basin_uniq r h8 row hrow x hx2 hcx
  · rw [hdb1, hcs]
    exact filter_append_single _ _ _ h1 hselfS
  · rw [hdb1, hpd]
    exact filter_append_single _ _ _ h2 hselfP
  · rw [hdb1, haw]
    exact filter_append_single _ _ _ h3 hselfA
  · rw [hdb1, hrd]
    exact filter_append_single _ _ _ h4 hselfR
  · rw [hdb1, hrp]
    exact filter_append_single _ _ _ h5 hselfPr
  · rw [hdb1, hcd]
    exact filter_append_single _ _ _ h6 hselfC
  · intro brow hbrow
    rw [hdb1, hbd, List.filter_append]
    have hleft : db.basin_data.filter (basinConflict brow) = [] := by
      rw [List.filter_eq_nil_iff]
      intro x hx
      have := List.any_eq_false.mp (h7 brow hbrow) x hx
      simpa using this
    rw [hleft]
    have hright : (basinRows r).filter (basinConflict brow) = [brow] :=
      filter_unique _ _ _ (h8.of_map) hbrow (basinConflict_self r brow hbrow ht hd hf)
        (basin_uniq r h8 brow hbrow)
    rw [hright]
    rfl

/-- Witness for C5: a concrete record with one basin inserted twice
into the empty store. -/
theorem C5_upsert_idempotent_witness :
    insert_data_to_database
      (insert_data_to_database ⟨[], [], [], [], [], [], []⟩
        [⟨⟨.str "XOM", .str "123", .str "Exxon", some (.str "10-K"),
          some (.str "2025-01-01"), .str "", .str "", .str ""⟩,
          none, none, none, none, none,
          .obj (.cons "Permian" (.obj .nil) .nil), .obj .nil⟩])
      [⟨⟨.str "XOM", .str "123", .str "Exxon", some (.str "10-K"),
        some (.str "2025-01-01"), .str "", .str "", .str ""⟩,
        none, none, none, none, none,
        .obj (.cons "Permian" (.obj .nil) .nil), .obj .nil⟩] =
    insert_data_to_database ⟨[], [], [], [], [], [], []⟩
      [⟨⟨.str "XOM", .str "123", .str "Exxon", some (.str "10-K"),
        some (.str "2025-01-01"), .str "", .str "", .str ""⟩,
        none, none, none, none, none,
        .obj (.cons "Permian" (.obj .nil) .nil), .obj .nil⟩] :=
  (C5_upsert_idempotent ⟨[], [], [], [], [], [], []⟩
    ⟨⟨.str "XOM", .str "123", .str "Exxon", some (.str "10-K"),
      some (.str "2025-01-01"), .str "", .str "", .str ""⟩,
      none, none, none, none, none,
      .obj (.cons "Permian" (.obj .nil) .nil), .obj .nil⟩
    (by decide) (by decide) (by decide) (by decide) (by decide) (by decide)
    (by decide) (by decide) (by decide) (by decide) (by decide) (by decide)).1

end SecFiling
